import Mathlib

/-!
# Verification of the skeleton derivation / version-masking / scaffold pipeline

A shallow embedding, in Lean 4, of the core of the `cargo-chef` crate:

* `src/skeleton/version_masking.rs` — the Version Masking Engine,
* `src/skeleton/mod.rs` — `Skeleton::derive`, `Skeleton::build_minimum_project`,
  `Skeleton::remove_compiled_dummies`, `ignore_all_members_except`,
* `src/skeleton/read.rs` — manifest collection, bin sorting, toolchain reading,
* `src/main.rs` — the CLI profile parsing feeding `remove_compiled_dummies`,
* `src/recipe.rs` — the `Recipe` persistence wrapper (JSON round-trip).

TOML values (`toml::Value`) are modelled by the inductive `Toml` below; TOML
tables are association lists of key/value pairs (the Rust `toml` crate's table
is a map; `get`/`get_mut` become first-key lookup / pointwise update).
Filesystem effects are modelled by passing the file contents (or the produced
write set) explicitly.
-/

namespace CargoChef

/-- Model of `toml::Value`: strings, integers, booleans, arrays and tables.
Tables are association lists; lookup is first-match (keys are unique in any
value produced by a real TOML parser). -/
inductive Toml where
  | str : String → Toml
  | int : Int → Toml
  | bool : Bool → Toml
  | arr : List Toml → Toml
  | table : List (String × Toml) → Toml

mutual

/-- Structural equality on TOML values (Rust's derived `PartialEq` on
`toml::Value`). -/
def tomlBeq : Toml → Toml → Bool
  | .str a, .str b => a == b
  | .int a, .int b => a == b
  | .bool a, .bool b => a == b
  | .arr a, .arr b => tomlListBeq a b
  | .table a, .table b => tomlTableBeq a b
  | _, _ => false

/-- Structural equality on TOML arrays. -/
def tomlListBeq : List Toml → List Toml → Bool
  | [], [] => true
  | a :: as, b :: bs => tomlBeq a b && tomlListBeq as bs
  | _, _ => false

/-- Structural equality on TOML tables. -/
def tomlTableBeq : List (String × Toml) → List (String × Toml) → Bool
  | [], [] => true
  | (k1, v1) :: as, (k2, v2) :: bs => k1 == k2 && tomlBeq v1 v2 && tomlTableBeq as bs
  | _, _ => false

end

mutual

theorem tomlBeq_iff : ∀ (a b : Toml), tomlBeq a b = true ↔ a = b
  | .str a, .str b => by simp [tomlBeq]
  | .int a, .int b => by simp [tomlBeq]
  | .bool a, .bool b => by simp [tomlBeq]
  | .arr a, .arr b => by
      rw [show tomlBeq (.arr a) (.arr b) = tomlListBeq a b from rfl, tomlListBeq_iff a b]
      exact ⟨fun h => h ▸ rfl, fun h => by cases h; rfl⟩
  | .table a, .table b => by
      rw [show tomlBeq (.table a) (.table b) = tomlTableBeq a b from rfl, tomlTableBeq_iff a b]
      exact ⟨fun h => h ▸ rfl, fun h => by cases h; rfl⟩
  | .str a, .int b => by simp [tomlBeq]
  | .str a, .bool b => by simp [tomlBeq]
  | .str a, .arr b => by simp [tomlBeq]
  | .str a, .table b => by simp [tomlBeq]
  | .int a, .str b => by simp [tomlBeq]
  | .int a, .bool b => by simp [tomlBeq]
  | .int a, .arr b => by simp [tomlBeq]
  | .int a, .table b => by simp [tomlBeq]
  | .bool a, .str b => by simp [tomlBeq]
  | .bool a, .int b => by simp [tomlBeq]
  | .bool a, .arr b => by simp [tomlBeq]
  | .bool a, .table b => by simp [tomlBeq]
  | .arr a, .str b => by simp [tomlBeq]
  | .arr a, .int b => by simp [tomlBeq]
  | .arr a, .bool b => by simp [tomlBeq]
  | .arr a, .table b => by simp [tomlBeq]
  | .table a, .str b => by simp [tomlBeq]
  | .table a, .int b => by simp [tomlBeq]
  | .table a, .bool b => by simp [tomlBeq]
  | .table a, .arr b => by simp [tomlBeq]

theorem tomlListBeq_iff : ∀ (a b : List Toml), tomlListBeq a b = true ↔ a = b
  | [], [] => by simp [tomlListBeq]
  | [], _ :: _ => by simp [tomlListBeq]
  | _ :: _, [] => by simp [tomlListBeq]
  | a :: as, b :: bs => by
      rw [show tomlListBeq (a :: as) (b :: bs) = (tomlBeq a b && tomlListBeq as bs) from rfl]
      rw [Bool.and_eq_true, tomlBeq_iff a b, tomlListBeq_iff as bs]
      simp

theorem tomlTableBeq_iff : ∀ (a b : List (String × Toml)), tomlTableBeq a b = true ↔ a = b
  | [], [] => by simp [tomlTableBeq]
  | [], _ :: _ => by simp [tomlTableBeq]
  | _ :: _, [] => by simp [tomlTableBeq]
  | (k1, v1) :: as, (k2, v2) :: bs => by
      rw [show tomlTableBeq ((k1, v1) :: as) ((k2, v2) :: bs)
            = (k1 == k2 && tomlBeq v1 v2 && tomlTableBeq as bs) from rfl]
      rw [Bool.and_eq_true, Bool.and_eq_true, tomlBeq_iff v1 v2, tomlTableBeq_iff as bs]
      simp [Prod.ext_iff]

end

instance : BEq Toml := ⟨tomlBeq⟩

instance : DecidableEq Toml := fun a b => decidable_of_iff _ (tomlBeq_iff a b)

/-- `toml::Value::get(key)`: returns the value bound to `key` when the value
is a table holding it, `None` otherwise (non-tables always yield `None`). -/
def tget (t : Toml) (k : String) : Option Toml :=
  match t with
  | .table kvs => kvs.lookup k
  | _ => none

/-- The `if let Some(v) = t.get_mut(k) { *v = f(v) }` pattern: rewrite the
value bound to `k` in place when present, leave everything else untouched.
Non-tables, and tables without the key, are returned unchanged. -/
def tmodify (t : Toml) (k : String) (f : Toml → Toml) : Toml :=
  match t with
  | .table kvs => .table (kvs.map (fun p => if p.1 = k then (p.1, f p.2) else p))
  | _ => t

/-- One parsed manifest, as held in memory during `prepare`
(`ParsedManifest` in `src/skeleton/read.rs`: relative path, TOML contents,
plus the targets extracted from `cargo metadata`; the version-masking engine
only looks at `contents`). -/
structure ParsedManifest where
  relative_path : String
  contents : Toml

/-! ## Version Masking Engine (`src/skeleton/version_masking.rs`) -/

/-- Dummy version used for all local crates (`CONST_VERSION`). -/
def CONST_VERSION : String := "0.0.1"

/-- `parse_local_crate_names`: the names of all packages declared by some
manifest of the skeleton, in manifest order. -/
def parse_local_crate_names (manifests : List ParsedManifest) : List Toml :=
  manifests.foldr
    (fun m acc =>
      match tget m.contents "package" with
      | some p =>
        match tget p "name" with
        | some n => n :: acc
        | none => acc
      | none => acc)
    []

/-- The three dependency table keys walked by `_mask`. -/
def depKeys : List String := ["dependencies", "dev-dependencies", "build-dependencies"]

/-- The *resolved* package name of a dependency entry: the value of its
`package` field when the dependency is renamed, otherwise the key of the
entry in the dependencies table. -/
def resolvedName (key : String) (dep : Toml) : Toml :=
  match tget dep "package" with
  | some pname => pname
  | none => .str key

/-- Overwrite the `version` field of a dependency entry with the dummy
constant — only when such a field exists (`get_mut("version")`). -/
def setVersionConst (dep : Toml) : Toml :=
  tmodify dep "version" (fun _ => .str CONST_VERSION)

/-- The per-entry decision and rewrite of `_mask`'s inner loop: mask the
version exactly when the resolved name is a local package name. -/
def maskEntry (locals : List Toml) (key : String) (dep : Toml) : Toml :=
  if locals.contains (resolvedName key dep) then setVersionConst dep else dep

/-- Apply `maskEntry` to every entry of the table stored under one
dependency key (`as_table_mut` guard: non-table values are skipped). -/
def maskDepTableValue (locals : List Toml) (v : Toml) : Toml :=
  match v with
  | .table es => .table (es.map (fun p => (p.1, maskEntry locals p.1 p.2)))
  | _ => v

/-- `_mask`: walk `dependencies`, `dev-dependencies`, `build-dependencies`
of one TOML value, masking local entries in each. The Rust loop applies the
three keys in sequence; the keys are distinct so the order is immaterial. -/
def maskDeps (locals : List Toml) (t : Toml) : Toml :=
  depKeys.foldl (fun acc k => tmodify acc k (maskDepTableValue locals)) t

/-- `mask_local_dependency_versions`: `_mask` at top level, then on every
entry of the `target` table, then on the `workspace` table (whose
`package.version` is additionally overwritten unconditionally). -/
def mask_local_dependency_versions (locals : List Toml) (c : Toml) : Toml :=
  let c1 := maskDeps locals c
  let c2 := tmodify c1 "target"
    (fun tv =>
      match tv with
      | .table ts => .table (ts.map (fun p => (p.1, maskDeps locals p.2)))
      | _ => tv)
  tmodify c2 "workspace"
    (fun w =>
      let w1 := tmodify w "package" (fun p => tmodify p "version" (fun _ => .str CONST_VERSION))
      maskDeps locals w1)

/-- The `package.version` rewrite of `mask_local_versions_in_manifests`:
overwritten only when it is currently a TOML string (`version.as_str()`). -/
def maskOwnVersion (c : Toml) : Toml :=
  tmodify c "package"
    (fun p => tmodify p "version"
      (fun v => match v with | .str _ => .str CONST_VERSION | _ => v))

/-- `mask_local_versions_in_manifests`, for a single manifest. -/
def maskManifest (locals : List Toml) (m : ParsedManifest) : ParsedManifest :=
  { m with contents := mask_local_dependency_versions locals (maskOwnVersion m.contents) }

/-- `mask_local_versions_in_manifests` over the whole slice. -/
def mask_local_versions_in_manifests (locals : List Toml) (ms : List ParsedManifest) :
    List ParsedManifest :=
  ms.map (maskManifest locals)

/-- The lockfile filter of `mask_local_versions_in_lockfile`: a package entry
is masked iff its `name` is a local package name and it has no `source`
annotation. -/
def lockEntryIsLocal (locals : List Toml) (p : Toml) : Bool :=
  (match tget p "name" with
   | some n => locals.contains n
   | none => false)
  && (tget p "source").isNone

/-- One package entry of the lockfile after masking. -/
def maskLockPackage (locals : List Toml) (p : Toml) : Toml :=
  if lockEntryIsLocal locals p then setVersionConst p else p

/-- `mask_local_versions_in_lockfile`: mask every local, source-free entry of
the `package` array; lockfiles without a `package` array are untouched. -/
def mask_local_versions_in_lockfile (locals : List Toml) (l : Toml) : Toml :=
  tmodify l "package"
    (fun pk =>
      match pk with
      | .arr ps => .arr (ps.map (maskLockPackage locals))
      | _ => pk)

/-- `mask_local_crate_versions`: the engine's entry point. Returns the masked
manifests and the masked optional lockfile. -/
def mask_local_crate_versions (manifests : List ParsedManifest) (lock_file : Option Toml) :
    List ParsedManifest × Option Toml :=
  let locals := parse_local_crate_names manifests
  (mask_local_versions_in_manifests locals manifests,
   lock_file.map (mask_local_versions_in_lockfile locals))

/-! ## Basic lemmas about the TOML table operations -/

theorem lookup_map_same (k : String) (f : Toml → Toml) :
    ∀ kvs : List (String × Toml),
    (kvs.map (fun p => if p.1 = k then (p.1, f p.2) else p)).lookup k
      = (kvs.lookup k).map f
  | [] => rfl
  | ⟨a, b⟩ :: rest => by
    by_cases h : a = k
    · subst h
      rw [List.map_cons, if_pos (show ((a, b).1 = a) from rfl)]
      rw [List.lookup_cons, List.lookup_cons]
      simp [lookup_map_same a f rest]
    · have hbk : (k == a) = false := beq_false_of_ne (Ne.symm h)
      rw [List.map_cons, if_neg (show ¬((a, b).1 = k) from h)]
      rw [List.lookup_cons, List.lookup_cons]
      simp [hbk, lookup_map_same k f rest]

theorem lookup_map_diff (k k' : String) (hk : k' ≠ k) (f : Toml → Toml) :
    ∀ kvs : List (String × Toml),
    (kvs.map (fun p => if p.1 = k then (p.1, f p.2) else p)).lookup k'
      = kvs.lookup k'
  | [] => rfl
  | ⟨a, b⟩ :: rest => by
    by_cases h : a = k
    · have hbk : (k' == a) = false := beq_false_of_ne (fun he => hk (he.trans h))
      rw [List.map_cons, if_pos (show ((a, b).1 = k) from h)]
      rw [List.lookup_cons, List.lookup_cons]
      simp [hbk, lookup_map_diff k k' hk f rest]
    · rw [List.map_cons, if_neg (show ¬((a, b).1 = k) from h)]
      rw [List.lookup_cons, List.lookup_cons]
      by_cases h2 : k' = a
      · simp [h2]
      · have hbk : (k' == a) = false := beq_false_of_ne h2
        simp [hbk, lookup_map_diff k k' hk f rest]

/-- Reading back the modified key. -/
theorem tget_tmodify_self (t : Toml) (k : String) (f : Toml → Toml) :
    tget (tmodify t k f) k = (tget t k).map f := by
  cases t with
  | table kvs => exact lookup_map_same k f kvs
  | str s => rfl
  | int n => rfl
  | bool b => rfl
  | arr l => rfl

/-- `tmodify` leaves every other key untouched. -/
theorem tget_tmodify_diff (t : Toml) (k k' : String) (hk : k' ≠ k) (f : Toml → Toml) :
    tget (tmodify t k f) k' = tget t k' := by
  cases t with
  | table kvs => exact lookup_map_diff k k' hk f kvs
  | str s => rfl
  | int n => rfl
  | bool b => rfl
  | arr l => rfl

theorem map_modAt_modAt_self (k : String) (f g : Toml → Toml) :
    ∀ kvs : List (String × Toml),
    ((kvs.map (fun p => if p.1 = k then (p.1, f p.2) else p)).map
        (fun p => if p.1 = k then (p.1, g p.2) else p))
      = kvs.map (fun p => if p.1 = k then (p.1, g (f p.2)) else p)
  | [] => rfl
  | ⟨a, b⟩ :: rest => by
    by_cases h : a = k
    · rw [List.map_cons, if_pos (show ((a, b).1 = k) from h), List.map_cons,
        if_pos (show ((a, f b).1 = k) from h), List.map_cons,
        if_pos (show ((a, b).1 = k) from h)]
      exact congrArg (List.cons _) (map_modAt_modAt_self k f g rest)
    · rw [List.map_cons, if_neg (show ¬((a, b).1 = k) from h), List.map_cons,
        if_neg (show ¬((a, b).1 = k) from h), List.map_cons,
        if_neg (show ¬((a, b).1 = k) from h)]
      exact congrArg (List.cons _) (map_modAt_modAt_self k f g rest)

/-- Two `tmodify`s at the same key fuse. -/
theorem tmodify_tmodify_self (t : Toml) (k : String) (f g : Toml → Toml) :
    tmodify (tmodify t k f) k g = tmodify t k (fun v => g (f v)) := by
  cases t with
  | table kvs => exact congrArg Toml.table (map_modAt_modAt_self k f g kvs)
  | str s => rfl
  | int n => rfl
  | bool b => rfl
  | arr l => rfl

theorem map_modAt_comm (k k' : String) (hk : k ≠ k') (f g : Toml → Toml) :
    ∀ kvs : List (String × Toml),
    ((kvs.map (fun p => if p.1 = k then (p.1, f p.2) else p)).map
        (fun p => if p.1 = k' then (p.1, g p.2) else p))
      = ((kvs.map (fun p => if p.1 = k' then (p.1, g p.2) else p)).map
        (fun p => if p.1 = k then (p.1, f p.2) else p))
  | [] => rfl
  | ⟨a, b⟩ :: rest => by
    by_cases h : a = k
    · have h2 : ¬(a = k') := fun he => hk (h ▸ he)
      rw [List.map_cons, if_pos (show ((a, b).1 = k) from h), List.map_cons,
        if_neg (show ¬((a, f b).1 = k') from h2), List.map_cons,
        if_neg (show ¬((a, b).1 = k') from h2), List.map_cons,
        if_pos (show ((a, b).1 = k) from h)]
      exact congrArg (List.cons _) (map_modAt_comm k k' hk f g rest)
    · by_cases h2 : a = k'
      · rw [List.map_cons, if_neg (show ¬((a, b).1 = k) from h), List.map_cons,
          if_pos (show ((a, b).1 = k') from h2), List.map_cons,
          if_pos (show ((a, b).1 = k') from h2), List.map_cons,
          if_neg (show ¬((a, g b).1 = k) from h)]
        exact congrArg (List.cons _) (map_modAt_comm k k' hk f g rest)
      · rw [List.map_cons, if_neg (show ¬((a, b).1 = k) from h), List.map_cons,
          if_neg (show ¬((a, b).1 = k') from h2), List.map_cons,
          if_neg (show ¬((a, b).1 = k') from h2), List.map_cons,
          if_neg (show ¬((a, b).1 = k) from h)]
        exact congrArg (List.cons _) (map_modAt_comm k k' hk f g rest)

/-- `tmodify`s at distinct keys commute. -/
theorem tmodify_comm (t : Toml) (k k' : String) (hk : k ≠ k') (f g : Toml → Toml) :
    tmodify (tmodify t k f) k' g = tmodify (tmodify t k' g) k f := by
  cases t with
  | table kvs => exact congrArg Toml.table (map_modAt_comm k k' hk f g kvs)
  | str s => rfl
  | int n => rfl
  | bool b => rfl
  | arr l => rfl

/-! ## Locating the dependency tables the claims quantify over -/

/-- The dependency table stored under key `k` of one TOML value (`None` when
absent or not a table). -/
def depTableAt (c : Toml) (k : String) : Option (List (String × Toml)) :=
  match tget c k with
  | some (.table es) => some es
  | _ => none

/-- The dependency table under key `k` of the per-target conditional table
`[target.<tname>]`. -/
def targetDepTableAt (c : Toml) (tname k : String) : Option (List (String × Toml)) :=
  match tget c "target" with
  | some tv =>
    match tget tv tname with
    | some tc => depTableAt tc k
    | none => none
  | none => none

/-- The dependency table under key `k` of the `[workspace]` table. -/
def workspaceDepTableAt (c : Toml) (k : String) : Option (List (String × Toml)) :=
  match tget c "workspace" with
  | some w => depTableAt w k
  | none => none

/-- Unfolding of the three-key fold in `maskDeps`. -/
theorem maskDeps_eq (locals : List Toml) (t : Toml) :
    maskDeps locals t
      = tmodify (tmodify (tmodify t "dependencies" (maskDepTableValue locals))
          "dev-dependencies" (maskDepTableValue locals))
          "build-dependencies" (maskDepTableValue locals) := rfl

theorem lookup_map_val (k : String) (h : Toml → Toml) :
    ∀ kvs : List (String × Toml),
    (kvs.map (fun p => (p.1, h p.2))).lookup k = (kvs.lookup k).map h
  | [] => rfl
  | ⟨a, b⟩ :: rest => by
    rw [List.map_cons, List.lookup_cons, List.lookup_cons]
    by_cases hc : k = a
    · simp [hc]
    · have hbk : (k == a) = false := beq_false_of_ne hc
      simp [hbk, lookup_map_val k h rest]

/-- `maskDeps` does not look at keys outside the three dependency keys. -/
theorem tget_maskDeps_notDep (locals : List Toml) (t : Toml) (k : String)
    (hk : ¬k ∈ depKeys) : tget (maskDeps locals t) k = tget t k := by
  have h1 : k ≠ "dependencies" := fun he => hk (by rw [he]; simp [depKeys])
  have h2 : k ≠ "dev-dependencies" := fun he => hk (by rw [he]; simp [depKeys])
  have h3 : k ≠ "build-dependencies" := fun he => hk (by rw [he]; simp [depKeys])
  rw [maskDeps_eq, tget_tmodify_diff _ _ _ h3, tget_tmodify_diff _ _ _ h2,
    tget_tmodify_diff _ _ _ h1]

/-- At a dependency key, `maskDeps` rewrites the stored table pointwise with
`maskEntry`. -/
theorem depTableAt_maskDeps (locals : List Toml) (t : Toml) (k : String)
    (hk : k ∈ depKeys) :
    depTableAt (maskDeps locals t) k
      = (depTableAt t k).map (List.map (fun p => (p.1, maskEntry locals p.1 p.2))) := by
  have hmain : tget (maskDeps locals t) k = (tget t k).map (maskDepTableValue locals) := by
    have d12 : ("dependencies" : String) ≠ "dev-dependencies" := by decide
    have d13 : ("dependencies" : String) ≠ "build-dependencies" := by decide
    have d23 : ("dev-dependencies" : String) ≠ "build-dependencies" := by decide
    rw [maskDeps_eq]
    simp only [depKeys, List.mem_cons, List.not_mem_nil, or_false] at hk
    rcases hk with rfl | rfl | rfl
    · rw [tget_tmodify_diff _ _ _ d13, tget_tmodify_diff _ _ _ d12, tget_tmodify_self]
    · rw [tget_tmodify_diff _ _ _ d23, tget_tmodify_self,
        tget_tmodify_diff _ _ _ (Ne.symm d12)]
    · rw [tget_tmodify_self, tget_tmodify_diff _ _ _ (Ne.symm d23),
        tget_tmodify_diff _ _ _ (Ne.symm d13)]
  unfold depTableAt
  rw [hmain]
  match htv : tget t k with
  | none => rfl
  | some (.table es) => rfl
  | some (.str s) => rfl
  | some (.int n) => rfl
  | some (.bool b) => rfl
  | some (.arr l) => rfl

/-- Membership facts about the fixed key sets, used to separate the pipeline
stages. -/
theorem package_not_depKey : ¬("package" : String) ∈ depKeys := by decide
theorem target_not_depKey : ¬("target" : String) ∈ depKeys := by decide
theorem workspace_not_depKey : ¬("workspace" : String) ∈ depKeys := by decide

theorem depKey_ne_package {k : String} (hk : k ∈ depKeys) : k ≠ "package" :=
  fun he => package_not_depKey (he ▸ hk)

theorem depKey_ne_target {k : String} (hk : k ∈ depKeys) : k ≠ "target" :=
  fun he => target_not_depKey (he ▸ hk)

theorem depKey_ne_workspace {k : String} (hk : k ∈ depKeys) : k ≠ "workspace" :=
  fun he => workspace_not_depKey (he ▸ hk)

/-- Top-level dependency tables after the whole per-manifest rewrite. -/
theorem depTableAt_mldv (locals : List Toml) (c : Toml) (k : String) (hk : k ∈ depKeys) :
    depTableAt (mask_local_dependency_versions locals c) k
      = (depTableAt c k).map (List.map (fun p => (p.1, maskEntry locals p.1 p.2))) := by
  unfold mask_local_dependency_versions
  unfold depTableAt
  rw [tget_tmodify_diff _ _ _ (depKey_ne_workspace hk),
    tget_tmodify_diff _ _ _ (depKey_ne_target hk)]
  have := depTableAt_maskDeps locals c k hk
  unfold depTableAt at this
  exact this

/-- Per-target conditional dependency tables after the whole per-manifest
rewrite. -/
theorem targetDepTableAt_mldv (locals : List Toml) (c : Toml) (tname k : String)
    (hk : k ∈ depKeys) :
    targetDepTableAt (mask_local_dependency_versions locals c) tname k
      = (targetDepTableAt c tname k).map
          (List.map (fun p => (p.1, maskEntry locals p.1 p.2))) := by
  unfold mask_local_dependency_versions
  unfold targetDepTableAt
  have hwt : ("target" : String) ≠ "workspace" := by decide
  rw [tget_tmodify_diff _ _ _ hwt, tget_tmodify_self,
    tget_maskDeps_notDep _ _ _ target_not_depKey]
  match htv : tget c "target" with
  | none => rfl
  | some (.str s) => rfl
  | some (.int n) => rfl
  | some (.bool b) => rfl
  | some (.arr l) => rfl
  | some (.table ts) =>
    show (match (ts.map (fun p => (p.1, maskDeps locals p.2))).lookup tname with
      | some tc => depTableAt tc k
      | none => none)
      = Option.map (List.map fun p => (p.1, maskEntry locals p.1 p.2))
        (match ts.lookup tname with
        | some tc => depTableAt tc k
        | none => none)
    rw [lookup_map_val]
    match htc : ts.lookup tname with
    | none => rfl
    | some tc => exact depTableAt_maskDeps locals tc k hk

/-- Workspace-inherited dependency tables after the whole per-manifest
rewrite. -/
theorem workspaceDepTableAt_mldv (locals : List Toml) (c : Toml) (k : String)
    (hk : k ∈ depKeys) :
    workspaceDepTableAt (mask_local_dependency_versions locals c) k
      = (workspaceDepTableAt c k).map
          (List.map (fun p => (p.1, maskEntry locals p.1 p.2))) := by
  unfold mask_local_dependency_versions
  unfold workspaceDepTableAt
  have hwt : ("target" : String) ≠ "workspace" := by decide
  rw [tget_tmodify_self, tget_tmodify_diff _ _ _ (Ne.symm hwt),
    tget_maskDeps_notDep _ _ _ workspace_not_depKey]
  match hw : tget c "workspace" with
  | none => rfl
  | some w =>
    show depTableAt (maskDeps locals (tmodify w "package" _)) k = _
    rw [depTableAt_maskDeps _ _ _ hk]
    have : depTableAt (tmodify w "package"
        (fun p => tmodify p "version" (fun _ => Toml.str CONST_VERSION))) k
        = depTableAt w k := by
      unfold depTableAt
      rw [tget_tmodify_diff _ _ _ (depKey_ne_package hk)]
    rw [this]

/-- `maskOwnVersion` only touches the `package` table: every dependency
table, at every one of the three locations, is untouched by it. -/
theorem depTables_maskOwnVersion (c : Toml) (tname k : String) (hk : k ∈ depKeys) :
    depTableAt (maskOwnVersion c) k = depTableAt c k ∧
    targetDepTableAt (maskOwnVersion c) tname k = targetDepTableAt c tname k ∧
    workspaceDepTableAt (maskOwnVersion c) k = workspaceDepTableAt c k := by
  have ht : ("target" : String) ≠ "package" := by decide
  have hw : ("workspace" : String) ≠ "package" := by decide
  unfold maskOwnVersion depTableAt targetDepTableAt workspaceDepTableAt
  rw [tget_tmodify_diff _ _ _ (depKey_ne_package hk), tget_tmodify_diff _ _ _ ht,
    tget_tmodify_diff _ _ _ hw]
  exact ⟨rfl, rfl, rfl⟩

instance : LawfulBEq Toml where
  eq_of_beq h := (tomlBeq_iff _ _).1 h
  rfl := (tomlBeq_iff _ _).2 rfl

theorem map_modAt_of_lookup_none (k : String) (f : Toml → Toml) :
    ∀ kvs : List (String × Toml), kvs.lookup k = none →
    kvs.map (fun p => if p.1 = k then (p.1, f p.2) else p) = kvs
  | [], _ => rfl
  | ⟨a, b⟩ :: rest, h => by
    rw [List.lookup_cons] at h
    match hb : (k == a) with
    | true => rw [hb] at h; cases h
    | false =>
      rw [hb] at h
      have ha : ¬(a = k) := fun he => by
        rw [he] at hb
        simp at hb
      rw [List.map_cons, if_neg (show ¬((a, b).1 = k) from ha),
        map_modAt_of_lookup_none k f rest h]

/-- Modifying an absent key is a no-op (the `if let Some(..) = get_mut(..)`
pattern falls through). -/
theorem tmodify_of_tget_none (t : Toml) (k : String) (f : Toml → Toml)
    (h : tget t k = none) : tmodify t k f = t := by
  cases t with
  | table kvs => exact congrArg Toml.table (map_modAt_of_lookup_none k f kvs h)
  | str s => rfl
  | int n => rfl
  | bool b => rfl
  | arr l => rfl

/-! ## Claim C2: scope of dependency-version masking -/

/-- Workspace fixture from the spec scenario: local package `a`, which
depends on local package `b` under the rename `c` and on the external
package `u`. -/
def exManifestA : ParsedManifest :=
  ⟨"a/Cargo.toml", .table [
    ("package", .table [("name", .str "a"), ("version", .str "0.5.0")]),
    ("dependencies", .table [
      ("c", .table [("package", .str "b"), ("path", .str "../b"),
        ("version", .str "0.2.1")]),
      ("u", .table [("version", .str "1.0.0")])])]⟩

/-- Local package `b`, which also depends on the external package `u`. -/
def exManifestB : ParsedManifest :=
  ⟨"b/Cargo.toml", .table [
    ("package", .table [("name", .str "b"), ("version", .str "0.2.1")]),
    ("dependencies", .table [
      ("u", .table [("version", .str "1.0.0")])])]⟩

/-- Expected masking result for `exManifestA`: its own version and the
version of the renamed local dependency `c` are dummied; `u` is untouched. -/
def exManifestAMasked : ParsedManifest :=
  ⟨"a/Cargo.toml", .table [
    ("package", .table [("name", .str "a"), ("version", .str "0.0.1")]),
    ("dependencies", .table [
      ("c", .table [("package", .str "b"), ("path", .str "../b"),
        ("version", .str "0.0.1")]),
      ("u", .table [("version", .str "1.0.0")])])]⟩

/-- Expected masking result for `exManifestB`. -/
def exManifestBMasked : ParsedManifest :=
  ⟨"b/Cargo.toml", .table [
    ("package", .table [("name", .str "b"), ("version", .str "0.0.1")]),
    ("dependencies", .table [
      ("u", .table [("version", .str "1.0.0")])])]⟩

/-- What claim C2 asserts of one manifest `m` of the skeleton `ms`, one
dependency key `k` and one conditional-target name `tname`: the masked
skeleton contains a manifest at the same relative path whose dependency
tables — top-level, per-target and workspace-inherited — are the original
tables rewritten entrywise by `maskEntry`, and `maskEntry` dummies the
version of exactly the entries whose resolved name is a locally declared
package name. -/
def MaskScopeSpec (ms : List ParsedManifest) (lock : Option Toml)
    (m : ParsedManifest) (k tname : String) : Prop :=
  (∃ m', m' ∈ (mask_local_crate_versions ms lock).1 ∧
    m'.relative_path = m.relative_path ∧
    depTableAt m'.contents k
      = (depTableAt m.contents k).map
          (List.map (fun p => (p.1, maskEntry (parse_local_crate_names ms) p.1 p.2))) ∧
    targetDepTableAt m'.contents tname k
      = (targetDepTableAt m.contents tname k).map
          (List.map (fun p => (p.1, maskEntry (parse_local_crate_names ms) p.1 p.2))) ∧
    workspaceDepTableAt m'.contents k
      = (workspaceDepTableAt m.contents k).map
          (List.map (fun p => (p.1, maskEntry (parse_local_crate_names ms) p.1 p.2)))) ∧
  (∀ key dep, resolvedName key dep ∈ parse_local_crate_names ms →
    maskEntry (parse_local_crate_names ms) key dep = setVersionConst dep) ∧
  (∀ key dep, ¬resolvedName key dep ∈ parse_local_crate_names ms →
    maskEntry (parse_local_crate_names ms) key dep = dep) ∧
  (∀ dep : Toml, tget (setVersionConst dep) "version"
      = (tget dep "version").map (fun _ => .str CONST_VERSION)) ∧
  (∀ dep : Toml, ∀ k2, k2 ≠ "version" → tget (setVersionConst dep) k2 = tget dep k2) ∧
  (∀ dep : Toml, tget dep "version" = none → setVersionConst dep = dep)

/-- C2. Version masking rewrites, in every dependency table of every
manifest (top-level, per-target conditional and workspace-inherited), the
`version` field of exactly the entries whose resolved package name — the
`package =` rename alias when present, otherwise the dependency key — is a
locally declared package name, setting it to the dummy constant and leaving
every other entry untouched; in particular, in the workspace where local
`a` depends on local `b` under the rename `c` and both depend on the
external `u`, the versions of `a`, `b` and of the `c` entry are dummied
while `u` is untouched everywhere. -/
theorem c2_dependency_version_masking_scope
    (ms : List ParsedManifest) (lock : Option Toml) (m : ParsedManifest)
    (hm : m ∈ ms) (k : String) (hk : k ∈ depKeys) (tname : String) :
    MaskScopeSpec ms lock m k tname ∧
    mask_local_crate_versions [exManifestA, exManifestB] none
      = ([exManifestAMasked, exManifestBMasked], none) := by
  constructor
  · constructor
    · refine ⟨maskManifest (parse_local_crate_names ms) m, ?_, rfl, ?_, ?_, ?_⟩
      · show _ ∈ ms.map (maskManifest (parse_local_crate_names ms))
        exact List.mem_map_of_mem _ hm
      · show depTableAt (mask_local_dependency_versions _ (maskOwnVersion m.contents)) k = _
        rw [depTableAt_mldv _ _ _ hk, (depTables_maskOwnVersion m.contents tname k hk).1]
      · show targetDepTableAt (mask_local_dependency_versions _ (maskOwnVersion m.contents))
          tname k = _
        rw [targetDepTableAt_mldv _ _ _ _ hk,
          (depTables_maskOwnVersion m.contents tname k hk).2.1]
      · show workspaceDepTableAt (mask_local_dependency_versions _ (maskOwnVersion m.contents))
          k = _
        rw [workspaceDepTableAt_mldv _ _ _ hk,
          (depTables_maskOwnVersion m.contents tname k hk).2.2]
    · refine ⟨?_, ?_, ?_, ?_, ?_⟩
      · intro key dep hmem
        unfold maskEntry
        rw [if_pos]
        exact List.elem_iff.2 hmem
      · intro key dep hmem
        unfold maskEntry
        rw [if_neg]
        exact fun hc => hmem (List.elem_iff.1 hc)
      · intro dep
        exact tget_tmodify_self dep "version" _
      · intro dep k2 hne
        exact tget_tmodify_diff dep "version" k2 hne _
      · intro dep hnone
        exact tmodify_of_tget_none dep "version" _ hnone
  · rfl

/-- Closed instance of C2 discharging its hypotheses on the fixture
workspace. -/
theorem c2_dependency_version_masking_scope_witness :
    exManifestA ∈ [exManifestA, exManifestB] ∧ "dependencies" ∈ depKeys ∧
    (MaskScopeSpec [exManifestA, exManifestB] none exManifestA "dependencies" "cfg(windows)" ∧
      mask_local_crate_versions [exManifestA, exManifestB] none
        = ([exManifestAMasked, exManifestBMasked], none)) :=
  ⟨List.mem_cons_self _ _, by simp [depKeys],
    c2_dependency_version_masking_scope [exManifestA, exManifestB] none exManifestA
      (List.mem_cons_self _ _) "dependencies" (by simp [depKeys]) "cfg(windows)"⟩

/-! ## Claim C3: lockfile masking is scoped to local, source-free entries -/

/-- Lockfile fixture: two entries named `b` — the local path package (no
`source` annotation) and an external registry package of the same name
(with a `source` annotation). -/
def exLock : Toml :=
  .table [("version", .int 3), ("package", .arr [
    .table [("name", .str "b"), ("version", .str "0.2.1")],
    .table [("name", .str "b"), ("version", .str "3.0.0"),
      ("source", .str "registry+https://github.com/rust-lang/crates.io-index")]])]

/-- Expected masking result for `exLock`: only the source-free entry is
dummied. -/
def exLockMasked : Toml :=
  .table [("version", .int 3), ("package", .arr [
    .table [("name", .str "b"), ("version", .str "0.0.1")],
    .table [("name", .str "b"), ("version", .str "3.0.0"),
      ("source", .str "registry+https://github.com/rust-lang/crates.io-index")]])]

/-- What claim C3 asserts of a local-name set and a lockfile: an entry is
selected for masking iff its name is local and it carries no source
annotation; selected entries get their version dummied, unselected entries
are returned unchanged; the rewrite acts elementwise on the `package` array
and on nothing else. -/
def LockMaskSpec (locals : List Toml) (l : Toml) : Prop :=
  (∀ p : Toml, lockEntryIsLocal locals p = true ↔
    ((∃ n, tget p "name" = some n ∧ n ∈ locals) ∧ tget p "source" = none)) ∧
  (∀ p : Toml, lockEntryIsLocal locals p = true →
    maskLockPackage locals p = setVersionConst p) ∧
  (∀ p : Toml, lockEntryIsLocal locals p = false → maskLockPackage locals p = p) ∧
  (∀ ps : List Toml, tget l "package" = some (.arr ps) →
    tget (mask_local_versions_in_lockfile locals l) "package"
      = some (.arr (ps.map (maskLockPackage locals)))) ∧
  (∀ k : String, k ≠ "package" →
    tget (mask_local_versions_in_lockfile locals l) k = tget l k)

/-- C3. A lockfile package entry's version is overwritten with the dummy
constant iff the entry's name is a locally declared package name and the
entry has no `source` annotation; on a lockfile holding a local and a
registry entry of the same name `b`, only the local one is rewritten. -/
theorem c3_lockfile_masking_scope (ms : List ParsedManifest) (l : Toml) :
    LockMaskSpec (parse_local_crate_names ms) l ∧
    (mask_local_crate_versions ms (some l)).2
      = some (mask_local_versions_in_lockfile (parse_local_crate_names ms) l) ∧
    mask_local_versions_in_lockfile
        (parse_local_crate_names [exManifestA, exManifestB]) exLock = exLockMasked := by
  refine ⟨⟨?_, ?_, ?_, ?_, ?_⟩, rfl, rfl⟩
  · intro p
    unfold lockEntryIsLocal
    rw [Bool.and_eq_true]
    constructor
    · rintro ⟨h1, h2⟩
      have h2' : tget p "source" = none := Option.isNone_iff_eq_none.1 h2
      match hn : tget p "name" with
      | some n =>
        rw [hn] at h1
        exact ⟨⟨n, rfl, List.elem_iff.1 h1⟩, h2'⟩
      | none =>
        rw [hn] at h1
        cases h1
    · rintro ⟨⟨n, hn, hmem⟩, hs⟩
      refine ⟨?_, ?_⟩
      · rw [hn]
        exact List.elem_iff.2 hmem
      · rw [hs]
        rfl
  · intro p h
    simp [maskLockPackage, h]
  · intro p h
    simp [maskLockPackage, h]
  · intro ps hps
    unfold mask_local_versions_in_lockfile
    rw [tget_tmodify_self, hps]
    rfl
  · intro k hk
    unfold mask_local_versions_in_lockfile
    exact tget_tmodify_diff l "package" k hk _

/-! ## Claim C10: idempotence of the masking engine -/

theorem version_ne_package : ("package" : String) ≠ "version" := by decide

theorem setVersionConst_idem (d : Toml) :
    setVersionConst (setVersionConst d) = setVersionConst d := by
  unfold setVersionConst
  rw [tmodify_tmodify_self]

theorem resolvedName_setVersionConst (key : String) (d : Toml) :
    resolvedName key (setVersionConst d) = resolvedName key d := by
  unfold resolvedName setVersionConst
  rw [tget_tmodify_diff _ _ _ version_ne_package]

theorem maskEntry_idem (L : List Toml) (key : String) (d : Toml) :
    maskEntry L key (maskEntry L key d) = maskEntry L key d := by
  by_cases hc : L.contains (resolvedName key d) = true
  · have h1 : maskEntry L key d = setVersionConst d := by
      rw [maskEntry, if_pos hc]
    rw [h1, maskEntry, resolvedName_setVersionConst, if_pos hc, setVersionConst_idem]
  · have h1 : maskEntry L key d = d := by
      rw [maskEntry, if_neg hc]
    rw [h1, h1]

theorem map_maskEntry_idem (L : List Toml) :
    ∀ es : List (String × Toml),
    (es.map (fun p => (p.1, maskEntry L p.1 p.2))).map (fun p => (p.1, maskEntry L p.1 p.2))
      = es.map (fun p => (p.1, maskEntry L p.1 p.2))
  | [] => rfl
  | ⟨a, b⟩ :: rest => by
    show (a, maskEntry L a (maskEntry L a b))
        :: ((rest.map (fun p => (p.1, maskEntry L p.1 p.2))).map
          (fun p => (p.1, maskEntry L p.1 p.2)))
      = (a, maskEntry L a b) :: rest.map (fun p => (p.1, maskEntry L p.1 p.2))
    rw [maskEntry_idem, map_maskEntry_idem L rest]

theorem maskDepTableValue_idem (L : List Toml) (v : Toml) :
    maskDepTableValue L (maskDepTableValue L v) = maskDepTableValue L v := by
  cases v with
  | table es => exact congrArg Toml.table (map_maskEntry_idem L es)
  | str s => rfl
  | int n => rfl
  | bool b => rfl
  | arr l => rfl

/-- `maskDeps` commutes with a `tmodify` at any key outside the three
dependency keys. -/
theorem maskDeps_tmodify_comm (L : List Toml) (x : Toml) (K : String)
    (hK : ¬K ∈ depKeys) (g : Toml → Toml) :
    maskDeps L (tmodify x K g) = tmodify (maskDeps L x) K g := by
  have h1 : K ≠ "dependencies" := fun he => hK (by rw [he]; simp [depKeys])
  have h2 : K ≠ "dev-dependencies" := fun he => hK (by rw [he]; simp [depKeys])
  have h3 : K ≠ "build-dependencies" := fun he => hK (by rw [he]; simp [depKeys])
  rw [maskDeps_eq, maskDeps_eq, tmodify_comm _ _ _ h1, tmodify_comm _ _ _ h2,
    tmodify_comm _ _ _ h3]

/-- One element of a TOML table after one key-targeted rewrite. -/
def modAt (k : String) (f : Toml → Toml) (p : String × Toml) : String × Toml :=
  if p.1 = k then (p.1, f p.2) else p

/-- `maskDeps` on a table is three elementwise rewrites. -/
theorem maskDeps_table (L : List Toml) (kvs : List (String × Toml)) :
    maskDeps L (.table kvs)
      = .table (((kvs.map (modAt "dependencies" (maskDepTableValue L))).map
          (modAt "dev-dependencies" (maskDepTableValue L))).map
          (modAt "build-dependencies" (maskDepTableValue L))) := rfl

theorem maskDeps_notTable (L : List Toml) (t : Toml) (h : ∀ kvs, t ≠ .table kvs) :
    maskDeps L t = t := by
  cases t with
  | table kvs => exact absurd rfl (h kvs)
  | str s => rfl
  | int n => rfl
  | bool b => rfl
  | arr l => rfl

theorem maskRow_idem (L : List Toml) (p : String × Toml) :
    modAt "build-dependencies" (maskDepTableValue L)
      (modAt "dev-dependencies" (maskDepTableValue L)
        (modAt "dependencies" (maskDepTableValue L)
          (modAt "build-dependencies" (maskDepTableValue L)
            (modAt "dev-dependencies" (maskDepTableValue L)
              (modAt "dependencies" (maskDepTableValue L) p)))))
      = modAt "build-dependencies" (maskDepTableValue L)
        (modAt "dev-dependencies" (maskDepTableValue L)
          (modAt "dependencies" (maskDepTableValue L) p)) := by
  obtain ⟨a, b⟩ := p
  by_cases h1 : a = "dependencies"
  · simp [modAt, h1, maskDepTableValue_idem]
  · by_cases h2 : a = "dev-dependencies"
    · simp [modAt, h1, h2, maskDepTableValue_idem]
    · by_cases h3 : a = "build-dependencies"
      · simp [modAt, h1, h2, h3, maskDepTableValue_idem]
      · simp [modAt, h1, h2, h3]

theorem map3_maskRow_idem (L : List Toml) :
    ∀ kvs : List (String × Toml),
    (((((((kvs.map (modAt "dependencies" (maskDepTableValue L))).map
        (modAt "dev-dependencies" (maskDepTableValue L))).map
        (modAt "build-dependencies" (maskDepTableValue L))).map
        (modAt "dependencies" (maskDepTableValue L))).map
        (modAt "dev-dependencies" (maskDepTableValue L))).map
        (modAt "build-dependencies" (maskDepTableValue L))))
      = ((kvs.map (modAt "dependencies" (maskDepTableValue L))).map
        (modAt "dev-dependencies" (maskDepTableValue L))).map
        (modAt "build-dependencies" (maskDepTableValue L))
  | [] => rfl
  | p :: rest => by
    simp only [List.map_cons]
    rw [maskRow_idem L p, map3_maskRow_idem L rest]

set_option maxHeartbeats 1000000 in
theorem maskDeps_idem (L : List Toml) (t : Toml) :
    maskDeps L (maskDeps L t) = maskDeps L t := by
  cases t with
  | table kvs =>
    rw [maskDeps_table L kvs]
    rw [maskDeps_table L _]
    exact congrArg Toml.table (map3_maskRow_idem L kvs)
  | str s => rfl
  | int n => rfl
  | bool b => rfl
  | arr l => rfl

/-- The rewrite applied to each `[target.<cfg>]` table. -/
def targetRewrite (L : List Toml) (tv : Toml) : Toml :=
  match tv with
  | .table ts => .table (ts.map (fun p => (p.1, maskDeps L p.2)))
  | _ => tv

/-- The rewrite applied to the `[workspace]` table. -/
def workspaceRewrite (L : List Toml) (w : Toml) : Toml :=
  maskDeps L (tmodify w "package" (fun p => tmodify p "version" (fun _ => .str CONST_VERSION)))

/-- `mask_local_dependency_versions` as a three-stage pipeline. -/
theorem mldv_pipeline (L : List Toml) (c : Toml) :
    mask_local_dependency_versions L c
      = tmodify (tmodify (maskDeps L c) "target" (targetRewrite L))
          "workspace" (workspaceRewrite L) := rfl

theorem map_maskDeps_idem (L : List Toml) :
    ∀ ts : List (String × Toml),
    (ts.map (fun p => (p.1, maskDeps L p.2))).map (fun p => (p.1, maskDeps L p.2))
      = ts.map (fun p => (p.1, maskDeps L p.2))
  | [] => rfl
  | ⟨a, b⟩ :: rest => by
    show (a, maskDeps L (maskDeps L b))
        :: ((rest.map (fun p => (p.1, maskDeps L p.2))).map (fun p => (p.1, maskDeps L p.2)))
      = (a, maskDeps L b) :: rest.map (fun p => (p.1, maskDeps L p.2))
    rw [maskDeps_idem, map_maskDeps_idem L rest]

theorem targetRewrite_idem (L : List Toml) (tv : Toml) :
    targetRewrite L (targetRewrite L tv) = targetRewrite L tv := by
  cases tv with
  | table ts => exact congrArg Toml.table (map_maskDeps_idem L ts)
  | str s => rfl
  | int n => rfl
  | bool b => rfl
  | arr l => rfl

theorem package_tmodify_idem (w : Toml) :
    tmodify (tmodify w "package" (fun p => tmodify p "version" (fun _ => .str CONST_VERSION)))
        "package" (fun p => tmodify p "version" (fun _ => .str CONST_VERSION))
      = tmodify w "package" (fun p => tmodify p "version" (fun _ => .str CONST_VERSION)) := by
  rw [tmodify_tmodify_self]
  exact congrArg (tmodify w "package") (funext fun p => setVersionConst_idem p)

theorem workspaceRewrite_idem (L : List Toml) (w : Toml) :
    workspaceRewrite L (workspaceRewrite L w) = workspaceRewrite L w := by
  unfold workspaceRewrite
  rw [← maskDeps_tmodify_comm L _ "package" package_not_depKey _]
  rw [maskDeps_idem]
  rw [show maskDeps L (tmodify w "package"
        (fun p => tmodify p "version" (fun _ => Toml.str CONST_VERSION)))
      = tmodify (maskDeps L w) "package"
        (fun p => tmodify p "version" (fun _ => Toml.str CONST_VERSION)) from
    maskDeps_tmodify_comm L w "package" package_not_depKey _]
  rw [package_tmodify_idem]
  rw [maskDeps_tmodify_comm L w "package" package_not_depKey _]

set_option maxHeartbeats 1000000 in
theorem mldv_idem (L : List Toml) (c : Toml) :
    mask_local_dependency_versions L (mask_local_dependency_versions L c)
      = mask_local_dependency_versions L c := by
  have hwt : ("target" : String) ≠ "workspace" := by decide
  rw [mldv_pipeline L c, mldv_pipeline L _]
  rw [maskDeps_tmodify_comm L _ "workspace" workspace_not_depKey _]
  rw [maskDeps_tmodify_comm L _ "target" target_not_depKey _]
  rw [maskDeps_idem]
  rw [tmodify_comm (tmodify (maskDeps L c) "target" (targetRewrite L))
      "workspace" "target" (Ne.symm hwt) _ _]
  rw [tmodify_tmodify_self _ "target" _ _]
  rw [show (fun v => targetRewrite L (targetRewrite L v)) = targetRewrite L from
    funext (targetRewrite_idem L)]
  rw [tmodify_tmodify_self _ "workspace" _ _]
  rw [show (fun v => workspaceRewrite L (workspaceRewrite L v)) = workspaceRewrite L from
    funext (workspaceRewrite_idem L)]


theorem maskOwnVersion_idem (c : Toml) :
    maskOwnVersion (maskOwnVersion c) = maskOwnVersion c := by
  unfold maskOwnVersion
  rw [tmodify_tmodify_self]
  refine congrArg (tmodify c "package") (funext fun p => ?_)
  rw [tmodify_tmodify_self]
  refine congrArg (tmodify p "version") (funext fun v => ?_)
  cases v <;> rfl

theorem maskOwnVersion_mldv_comm (L : List Toml) (x : Toml) :
    maskOwnVersion (mask_local_dependency_versions L x)
      = mask_local_dependency_versions L (maskOwnVersion x) := by
  have hwp : ("workspace" : String) ≠ "package" := by decide
  have htp : ("target" : String) ≠ "package" := by decide
  rw [mldv_pipeline, mldv_pipeline]
  unfold maskOwnVersion
  rw [tmodify_comm _ "workspace" "package" hwp _ _]
  rw [tmodify_comm _ "target" "package" htp _ _]
  rw [← maskDeps_tmodify_comm L x "package" package_not_depKey _]

theorem maskManifest_idem (L : List Toml) (m : ParsedManifest) :
    maskManifest L (maskManifest L m) = maskManifest L m := by
  show ParsedManifest.mk m.relative_path
      (mask_local_dependency_versions L (maskOwnVersion
        (mask_local_dependency_versions L (maskOwnVersion m.contents))))
    = ParsedManifest.mk m.relative_path
      (mask_local_dependency_versions L (maskOwnVersion m.contents))
  rw [maskOwnVersion_mldv_comm, maskOwnVersion_idem, mldv_idem]

theorem tget_mldv_package (L : List Toml) (x : Toml) :
    tget (mask_local_dependency_versions L x) "package" = tget x "package" := by
  have hpw : ("package" : String) ≠ "workspace" := by decide
  have hpt : ("package" : String) ≠ "target" := by decide
  rw [mldv_pipeline, tget_tmodify_diff _ _ _ hpw, tget_tmodify_diff _ _ _ hpt,
    tget_maskDeps_notDep _ _ _ package_not_depKey]

theorem parse_names_masked (L : List Toml) :
    ∀ ms : List ParsedManifest,
    parse_local_crate_names (ms.map (maskManifest L)) = parse_local_crate_names ms
  | [] => rfl
  | m :: rest => by
    have hrec := parse_names_masked L rest
    have hpkg : tget (maskManifest L m).contents "package"
        = (tget m.contents "package").map
            (fun p => tmodify p "version"
              (fun v => match v with | .str _ => .str CONST_VERSION | _ => v)) := by
      show tget (mask_local_dependency_versions L (maskOwnVersion m.contents)) "package" = _
      rw [tget_mldv_package]
      unfold maskOwnVersion
      rw [tget_tmodify_self]
    show (match tget (maskManifest L m).contents "package" with
        | some p =>
          match tget p "name" with
          | some n => n :: parse_local_crate_names (rest.map (maskManifest L))
          | none => parse_local_crate_names (rest.map (maskManifest L))
        | none => parse_local_crate_names (rest.map (maskManifest L)))
      = (match tget m.contents "package" with
        | some p =>
          match tget p "name" with
          | some n => n :: parse_local_crate_names rest
          | none => parse_local_crate_names rest
        | none => parse_local_crate_names rest)
    rw [hpkg, hrec]
    cases hp : tget m.contents "package" with
    | none => rfl
    | some p =>
      show (match tget (tmodify p "version" _) "name" with
        | some n => n :: parse_local_crate_names rest
        | none => parse_local_crate_names rest) = _
      rw [tget_tmodify_diff p "version" "name" (by decide) _]

theorem lockEntryIsLocal_setVersionConst (L : List Toml) (p : Toml) :
    lockEntryIsLocal L (setVersionConst p) = lockEntryIsLocal L p := by
  unfold lockEntryIsLocal setVersionConst
  rw [tget_tmodify_diff _ _ _ (show ("name" : String) ≠ "version" by decide),
    tget_tmodify_diff _ _ _ (show ("source" : String) ≠ "version" by decide)]

theorem maskLockPackage_idem (L : List Toml) (p : Toml) :
    maskLockPackage L (maskLockPackage L p) = maskLockPackage L p := by
  by_cases h : lockEntryIsLocal L p = true
  · have h1 : maskLockPackage L p = setVersionConst p := by
      rw [maskLockPackage, if_pos h]
    rw [h1, maskLockPackage, lockEntryIsLocal_setVersionConst, if_pos h,
      setVersionConst_idem]
  · have h1 : maskLockPackage L p = p := by
      rw [maskLockPackage, if_neg h]
    rw [h1, h1]

theorem map_maskLockPackage_idem (L : List Toml) :
    ∀ ps : List Toml,
    (ps.map (maskLockPackage L)).map (maskLockPackage L) = ps.map (maskLockPackage L)
  | [] => rfl
  | q :: rest => by
    rw [List.map_cons, List.map_cons, maskLockPackage_idem,
      map_maskLockPackage_idem L rest]

theorem lockMask_idem (L : List Toml) (l : Toml) :
    mask_local_versions_in_lockfile L (mask_local_versions_in_lockfile L l)
      = mask_local_versions_in_lockfile L l := by
  unfold mask_local_versions_in_lockfile
  rw [tmodify_tmodify_self]
  refine congrArg (tmodify l "package") (funext fun pk => ?_)
  cases pk with
  | arr ps =>
    show Toml.arr ((ps.map (maskLockPackage L)).map (maskLockPackage L))
      = Toml.arr (ps.map (maskLockPackage L))
    rw [map_maskLockPackage_idem]
  | str s => rfl
  | int n => rfl
  | bool b => rfl
  | table kvs => rfl

theorem map_maskManifest_idem (L : List Toml) :
    ∀ ms : List ParsedManifest,
    (ms.map (maskManifest L)).map (maskManifest L) = ms.map (maskManifest L)
  | [] => rfl
  | m :: rest => by
    rw [List.map_cons, List.map_cons, maskManifest_idem,
      map_maskManifest_idem L rest]

/-- C10. The Version Masking Engine is idempotent: masking an
already-masked slice of manifests together with its already-masked optional
lockfile changes nothing. -/
theorem c10_masking_idempotent (ms : List ParsedManifest) (lock : Option Toml) :
    mask_local_crate_versions (mask_local_crate_versions ms lock).1
        (mask_local_crate_versions ms lock).2
      = mask_local_crate_versions ms lock := by
  show (mask_local_versions_in_manifests
      (parse_local_crate_names
        (mask_local_versions_in_manifests (parse_local_crate_names ms) ms))
      (mask_local_versions_in_manifests (parse_local_crate_names ms) ms),
    (lock.map (mask_local_versions_in_lockfile (parse_local_crate_names ms))).map
      (mask_local_versions_in_lockfile
        (parse_local_crate_names
          (mask_local_versions_in_manifests (parse_local_crate_names ms) ms))))
    = (mask_local_versions_in_manifests (parse_local_crate_names ms) ms,
      lock.map (mask_local_versions_in_lockfile (parse_local_crate_names ms)))
  rw [show mask_local_versions_in_manifests (parse_local_crate_names ms) ms
      = ms.map (maskManifest (parse_local_crate_names ms)) from rfl]
  rw [parse_names_masked]
  rw [show mask_local_versions_in_manifests (parse_local_crate_names ms)
        (ms.map (maskManifest (parse_local_crate_names ms)))
      = (ms.map (maskManifest (parse_local_crate_names ms))).map
        (maskManifest (parse_local_crate_names ms)) from rfl]
  rw [map_maskManifest_idem]
  cases lock with
  | none => rfl
  | some l =>
    show (_, some (mask_local_versions_in_lockfile _
        (mask_local_versions_in_lockfile _ l))) = _
    rw [lockMask_idem]
    rfl


/-! ## Claim C4: placeholder file contents of `build_minimum_project`
(`src/skeleton/mod.rs`, lines 69-237) -/

/-- One `[[bin]]` section of a parsed manifest (`cargo_manifest` model). -/
structure BinTarget where
  path : Option String
  name : Option String

/-- The `[lib]` section; `procMacro` is the `proc-macro` crate flag. -/
structure LibTarget where
  path : Option String
  name : Option String
  procMacro : Bool

/-- One `[[test]]` section; `harness` defaults to `true` in cargo. -/
structure TestTarget where
  path : Option String
  name : Option String
  harness : Bool

/-- One `[[bench]]` section. -/
structure BenchTarget where
  path : Option String
  name : Option String

/-- One `[[example]]` section. -/
structure ExampleTarget where
  path : Option String
  name : Option String

/-- The `[package]` section: its name and the optional explicit build-script
path (the `Value::String` case of `package.build`). -/
structure PackageSection where
  name : String
  build : Option String

/-- The parts of a parsed manifest consumed by `build_minimum_project`.
The Rust `example` field is called `examples` here (`example` is a Lean
keyword). -/
structure CargoManifest where
  package : Option PackageSection
  bin : List BinTarget
  lib : Option LibTarget
  bench : List BenchTarget
  test : List TestTarget
  examples : List ExampleTarget

/-- `"fn main() {}"` — the trivial hosted entrypoint. -/
def mainStub : String := "fn main() \x7b\x7d"

/-- The freestanding (`no_std`) entrypoint stub with a panic handler. -/
def noStdEntrypoint : String :=
  "#![no_std]\n#![no_main]\n\n#[panic_handler]\nfn panic(_: &core::panic::PanicInfo) -> ! \x7b\n    loop \x7b\x7d\n\x7d\n"

/-- The freestanding custom-test-framework stub used for harness tests. -/
def noStdTestStub : String :=
  "#![no_std]\n#![no_main]\n#![feature(custom_test_frameworks)]\n#![test_runner(test_runner)]\n\n#[no_mangle]\npub extern \"C\" fn _init() \x7b\x7d\n\nfn test_runner(_: &[&dyn Fn()]) \x7b\x7d\n\n#[panic_handler]\nfn panic(_: &core::panic::PanicInfo) -> ! \x7b\n    loop \x7b\x7d\n\x7d\n"

/-- The `#![no_std]` marker written into freestanding non-proc-macro
library placeholders. -/
def noStdLibMarker : String := "#![no_std]"

/-- Binary placeholder content by mode. -/
def binContent (noStd : Bool) : String :=
  if noStd then noStdEntrypoint else mainStub

/-- Library placeholder content by mode and proc-macro flag. -/
def libContent (noStd procMacro : Bool) : String :=
  if noStd && !procMacro then noStdLibMarker else ""

/-- Benchmark placeholder content (always the trivial entrypoint). -/
def benchContent : String := mainStub

/-- Test placeholder content by mode and harness flag. -/
def testContent (noStd harness : Bool) : String :=
  if noStd then
    if harness then noStdTestStub else noStdEntrypoint
  else
    if harness then "" else mainStub

/-- Example placeholder content by mode. -/
def exampleContent (noStd : Bool) : String :=
  if noStd then noStdEntrypoint else mainStub

/-- Build-script placeholder content. -/
def buildScriptContent : String := mainStub

/-- Binary placeholder path: an explicit `path`, else `src/bin/<name>.rs`
for bins not named like the package, else `src/main.rs`. -/
def binPath (packageName : Option String) (b : BinTarget) : String :=
  match b.path with
  | some p => p
  | none =>
    match b.name with
    | some n => if some n ≠ packageName then "src/bin/" ++ n ++ ".rs" else "src/main.rs"
    | none => "src/main.rs"

/-- Library placeholder path. -/
def libPath (l : LibTarget) : String := l.path.getD "src/lib.rs"

/-- One benchmark placeholder file; a missing name is fatal. -/
def benchFile (bn : BenchTarget) : Except String (String × String) :=
  match bn.name with
  | none => .error "Missing benchmark name."
  | some n => .ok (bn.path.getD ("benches/" ++ n ++ ".rs"), benchContent)

/-- One test placeholder file; a missing name is fatal. -/
def testFile (noStd : Bool) (t : TestTarget) : Except String (String × String) :=
  match t.name with
  | none => .error "Missing test name."
  | some n => .ok (t.path.getD ("tests/" ++ n ++ ".rs"), testContent noStd t.harness)

/-- One example placeholder file; a missing name is fatal. -/
def exampleFile (noStd : Bool) (e : ExampleTarget) : Except String (String × String) :=
  match e.name with
  | none => .error "Missing example name."
  | some n => .ok (e.path.getD ("examples/" ++ n ++ ".rs"), exampleContent noStd)

/-- The dummy files written for one manifest by `build_minimum_project`, in
source order (bins, libraries, benches, tests, examples, build script),
as (path relative to the manifest directory, content) pairs. -/
def buildManifestDummyFiles (m : CargoManifest) (noStd : Bool) :
    Except String (List (String × String)) := do
  let pkgName := m.package.map (fun pk => pk.name)
  let binFiles := m.bin.map (fun b => (binPath pkgName b, binContent noStd))
  let libFiles := match m.lib with
    | some l => [(libPath l, libContent noStd l.procMacro)]
    | none => []
  let benchFiles ← m.bench.mapM benchFile
  let testFiles ← m.test.mapM (testFile noStd)
  let exampleFiles ← m.examples.mapM (exampleFile noStd)
  let buildFiles := match m.package with
    | some pkg =>
      match pkg.build with
      | some bp => [(bp, buildScriptContent)]
      | none => []
    | none => []
  return binFiles ++ libFiles ++ benchFiles ++ testFiles ++ exampleFiles ++ buildFiles

/-- The spec scenario manifest: one binary named like the package, one
harness test, one harness-disabled test. -/
def exScaffoldManifest : CargoManifest :=
  { package := some ⟨"demo", none⟩
    bin := [⟨none, some "demo"⟩]
    lib := none
    bench := []
    test := [⟨none, some "t1", true⟩, ⟨none, some "t2", false⟩]
    examples := [] }

/-- A manifest declaring only a proc-macro library. -/
def exProcMacroManifest : CargoManifest :=
  { package := some ⟨"macros", none⟩
    bin := []
    lib := some ⟨none, none, true⟩
    bench := []
    test := []
    examples := [] }

/-- C4. Placeholder contents are exactly determined by target kind, harness
flag, proc-macro flag and the freestanding mode: hosted binaries get the
trivial entrypoint, hosted harness tests are empty, hosted no-harness tests
get the trivial entrypoint; freestanding binaries and no-harness tests get
the freestanding entrypoint stub, freestanding harness tests get the
custom-test-runner stub, freestanding non-proc-macro libraries get the
`#![no_std]` marker, and proc-macro libraries stay empty even in
freestanding mode. -/
theorem c4_placeholder_contents :
    (binContent false = mainStub ∧ binContent true = noStdEntrypoint) ∧
    (testContent false true = "" ∧ testContent false false = mainStub) ∧
    (testContent true true = noStdTestStub ∧ testContent true false = noStdEntrypoint) ∧
    (libContent false false = "" ∧ libContent false true = "" ∧
      libContent true false = noStdLibMarker ∧ libContent true true = "") ∧
    buildManifestDummyFiles exScaffoldManifest false
      = .ok [("src/main.rs", mainStub), ("tests/t1.rs", ""), ("tests/t2.rs", mainStub)] ∧
    buildManifestDummyFiles exScaffoldManifest true
      = .ok [("src/main.rs", noStdEntrypoint), ("tests/t1.rs", noStdTestStub),
          ("tests/t2.rs", noStdEntrypoint)] ∧
    buildManifestDummyFiles exProcMacroManifest true = .ok [("src/lib.rs", "")] ∧
    buildManifestDummyFiles exProcMacroManifest false = .ok [("src/lib.rs", "")] :=
  ⟨⟨rfl, rfl⟩, ⟨rfl, rfl⟩, ⟨rfl, rfl⟩, ⟨rfl, rfl, rfl, rfl⟩, rfl, rfl, rfl, rfl⟩


/-! ## Claim C5: precision of `remove_compiled_dummies`
(`src/skeleton/mod.rs`, lines 272-313) -/

/-- `replace('-', "_")` on a crate name. -/
def sanitizeCrateName (s : String) : String :=
  String.mk (s.data.map (fun c => if c = '-' then '_' else c))

/-- Boolean string-prefix test (a glob `pre*` on one path component). -/
def strStarts (pre s : String) : Bool := pre.data.isPrefixOf s.data

/-- One basename matches the two dummy-library glob patterns
`lib<name>.*` / `lib<name>-*`. -/
def libArtifactMatch (libName fname : String) : Bool :=
  strStarts ("lib" ++ libName ++ ".") fname || strStarts ("lib" ++ libName ++ "-") fname

/-- The recursive glob `/**/lib<name>.*`, `/**/lib<name>-*` applied to a
path (a component list) below the profile directory: the basename must
match. -/
def libGlobMatch (libName : String) (path : List String) : Bool :=
  match path.getLast? with
  | some f => libArtifactMatch libName f
  | none => false

/-- The build-script reclaim glob
`/build/<pkg>-*/build[-_]script[-_]build*`. -/
def buildScriptArtifactMatch (pkgName : String) (path : List String) : Bool :=
  match path with
  | [d1, d2, f] =>
    d1 == "build" && strStarts (pkgName ++ "-") d2 &&
      (strStarts "build-script-build" f || strStarts "build-script_build" f ||
        strStarts "build_script-build" f || strStarts "build_script_build" f)
  | _ => false

/-- The dummy-library crate names of the skeleton: for each manifest that
declares a package with a library target, the library name (defaulting to
the package name) with hyphens replaced by underscores. -/
def manifestLibNames (ms : List CargoManifest) : List String :=
  ms.foldr
    (fun m acc =>
      match m.package with
      | some pkg =>
        (match m.lib with
         | some l => [sanitizeCrateName (l.name.getD pkg.name)]
         | none => []) ++ acc
      | none => acc)
    []

/-- The package names whose build-script artifacts are reclaimed: packages
declaring a build script. -/
def manifestBuildPkgNames (ms : List CargoManifest) : List String :=
  ms.foldr
    (fun m acc =>
      match m.package with
      | some pkg => (if pkg.build.isSome then [pkg.name] else []) ++ acc
      | none => acc)
    []

/-- An artifact (path below one output directory) is deleted iff it matches
a dummy-library glob of some local package or a build-script glob of some
local package. -/
def artifactDeleted (ms : List CargoManifest) (path : List String) : Bool :=
  (manifestLibNames ms).any (fun n => libGlobMatch n path) ||
    (manifestBuildPkgNames ms).any (fun n => buildScriptArtifactMatch n path)

/-- `remove_compiled_dummies`, on the artifact paths of one output
directory: the files surviving the reclaim pass. -/
def remove_compiled_dummies (ms : List CargoManifest) (files : List (List String)) :
    List (List String) :=
  files.filter (fun f => !(artifactDeleted ms f))

theorem strStarts_iff (pre s : String) :
    strStarts pre s = true ↔ ∃ suf : String, s = pre ++ suf := by
  unfold strStarts
  rw [List.isPrefixOf_iff_prefix]
  constructor
  · rintro ⟨t, ht⟩
    refine ⟨String.mk t, ?_⟩
    apply String.ext
    rw [String.data_append]
    exact ht.symm
  · rintro ⟨suf, rfl⟩
    exact ⟨suf.data, (String.data_append pre suf).symm⟩

/-- The local "foo" package with a library target. -/
def fooManifest : CargoManifest :=
  { package := some ⟨"foo", none⟩
    bin := []
    lib := some ⟨none, none, false⟩
    bench := []
    test := []
    examples := [] }

/-- Artifacts of the local `foo` library next to artifacts of unrelated
external crates `foobar`, `fo` and `foo-bar` whose names are substring
relatives of `foo`. -/
def exArtifacts : List (List String) :=
  [["libfoo.rlib"], ["deps", "libfoo-8f3a.rmeta"], ["libfoobar.rlib"],
    ["deps", "libfoobar-1c2d.rlib"], ["libfo.rlib"], ["libfoo_bar.rlib"]]

/-- C5. The Dummy Reclaimer deletes only artifacts whose names are derived
from locally declared packages, matching `lib<name>.<ext>` and
`lib<name>-<hash>` exactly: on the fixture, the two `foo` artifacts are
deleted while the `foobar`, `fo` and `foo_bar` artifacts survive. -/
theorem c5_reclaimer_precision :
    (∀ ms : List CargoManifest, ∀ f : List String, artifactDeleted ms f = true →
      (∃ n, n ∈ manifestLibNames ms ∧ libGlobMatch n f = true) ∨
      (∃ n, n ∈ manifestBuildPkgNames ms ∧ buildScriptArtifactMatch n f = true)) ∧
    (∀ ms n f, n ∈ manifestLibNames ms → libGlobMatch n f = true →
      artifactDeleted ms f = true) ∧
    (∀ n fname, libArtifactMatch n fname = true ↔
      ((∃ suf, fname = "lib" ++ n ++ "." ++ suf) ∨
        (∃ suf, fname = "lib" ++ n ++ "-" ++ suf))) ∧
    (∀ ms files f, f ∈ remove_compiled_dummies ms files ↔
      (f ∈ files ∧ artifactDeleted ms f = false)) ∧
    remove_compiled_dummies [fooManifest] exArtifacts
      = [["libfoobar.rlib"], ["deps", "libfoobar-1c2d.rlib"], ["libfo.rlib"],
          ["libfoo_bar.rlib"]] ∧
    artifactDeleted [fooManifest] ["libfoo.rlib"] = true ∧
    artifactDeleted [fooManifest] ["deps", "libfoo-8f3a.rmeta"] = true := by
  refine ⟨?_, ?_, ?_, ?_, by decide, by decide, by decide⟩
  · intro ms f h
    unfold artifactDeleted at h
    rcases Bool.or_eq_true_iff.1 h with h1 | h2
    · rcases List.any_eq_true.1 h1 with ⟨n, hn, hm⟩
      exact Or.inl ⟨n, hn, hm⟩
    · rcases List.any_eq_true.1 h2 with ⟨n, hn, hm⟩
      exact Or.inr ⟨n, hn, hm⟩
  · intro ms n f hn hm
    unfold artifactDeleted
    exact Bool.or_eq_true_iff.2 (Or.inl (List.any_eq_true.2 ⟨n, hn, hm⟩))
  · intro n fname
    unfold libArtifactMatch
    rw [Bool.or_eq_true_iff, strStarts_iff, strStarts_iff]
  · intro ms files f
    unfold remove_compiled_dummies
    simp only [List.mem_filter, Bool.not_eq_true']

/-- Closed instance of C5 discharging its hypotheses on the fixture. -/
theorem c5_reclaimer_precision_witness :
    (artifactDeleted [fooManifest] ["libfoo.rlib"] = true) ∧
    ((∃ n, n ∈ manifestLibNames [fooManifest] ∧ libGlobMatch n ["libfoo.rlib"] = true) ∨
      (∃ n, n ∈ manifestBuildPkgNames [fooManifest] ∧
        buildScriptArtifactMatch n ["libfoo.rlib"] = true)) :=
  ⟨by decide, c5_reclaimer_precision.1 [fooManifest] ["libfoo.rlib"] (by decide)⟩


/-! ## Claim C6: optimisation profile → output subdirectory
(`src/skeleton/mod.rs` lines 255-270 and `src/main.rs` lines 240-247) -/

/-- `OptimisationProfile` (`src/recipe.rs`). -/
inductive OptimisationProfile where
  | Release : OptimisationProfile
  | Debug : OptimisationProfile
  | Other : String → OptimisationProfile
deriving DecidableEq

/-- The profile → output-subdirectory mapping inside
`remove_compiled_dummies`. -/
def profileDirName : OptimisationProfile → String
  | .Release => "release"
  | .Debug => "debug"
  | .Other custom => custom

/-- The CLI `(release flag, --profile)` → `OptimisationProfile` mapping of
`_main` (`src/main.rs`). -/
def cliProfile : Bool → Option String → Except String OptimisationProfile
  | false, none => .ok .Debug
  | false, some p =>
    if p = "dev" then .ok .Debug
    else if p = "release" then .ok .Release
    else .ok (.Other p)
  | true, none => .ok .Release
  | true, some _ =>
    .error "You specified both --release and --profile arguments. Please remove one of them, or both"

/-- Refutation of C6 as stated: a profile named `bench` does not share the
release output directory, and a profile named `test` does not share the
debug output directory — both map to directories named after themselves. -/
theorem c6_profile_mapping_counterexample :
    cliProfile false (some "bench") = .ok (.Other "bench") ∧
    profileDirName (.Other "bench") = "bench" ∧
    profileDirName (.Other "bench") ≠ "release" ∧
    cliProfile false (some "test") = .ok (.Other "test") ∧
    profileDirName (.Other "test") = "test" ∧
    profileDirName (.Other "test") ≠ "debug" := by
  refine ⟨rfl, rfl, by decide, rfl, rfl, by decide⟩

/-- C6 (amended). The Release profile maps to the `release` directory, the
Debug profile to the `debug` directory, and every named profile — including
`bench` and `test` — maps to a directory named after itself; at the CLI
layer only `dev` is folded into Debug and `release` into Release. -/
theorem c6_profile_directory_mapping :
    profileDirName .Release = "release" ∧
    profileDirName .Debug = "debug" ∧
    (∀ s, profileDirName (.Other s) = s) ∧
    cliProfile false (some "dev") = .ok .Debug ∧
    cliProfile false (some "release") = .ok .Release ∧
    cliProfile true none = .ok .Release ∧
    cliProfile false none = .ok .Debug ∧
    (∀ s, s ≠ "dev" → s ≠ "release" → cliProfile false (some s) = .ok (.Other s)) := by
  refine ⟨rfl, rfl, fun s => rfl, rfl, rfl, rfl, rfl, ?_⟩
  intro s h1 h2
  show (if s = "dev" then Except.ok OptimisationProfile.Debug
    else if s = "release" then Except.ok OptimisationProfile.Release
    else Except.ok (OptimisationProfile.Other s)) = Except.ok (OptimisationProfile.Other s)
  rw [if_neg h1, if_neg h2]

/-- Closed instance of the amended C6 discharging its hypotheses at the
profile string `bench`. -/
theorem c6_profile_directory_mapping_witness :
    ("bench" : String) ≠ "dev" ∧ ("bench" : String) ≠ "release" ∧
    cliProfile false (some "bench") = .ok (.Other "bench") :=
  ⟨by decide, by decide,
    c6_profile_directory_mapping.2.2.2.2.2.2.2 "bench" (by decide) (by decide)⟩

/-! ## Claim C7: lossless round-trip of the serialized Skeleton
(`src/skeleton/mod.rs` lines 11-23, `src/recipe.rs` lines 8-11) -/

/-- The serialized `Manifest`. -/
structure Manifest where
  relative_path : String
  contents : String
deriving DecidableEq

/-- The serialized `Skeleton`. -/
structure Skeleton where
  manifests : List Manifest
  config_file : Option String
  lock_file : Option String
deriving DecidableEq

/-- The persisted `Recipe`, the thin wrapper around a Skeleton. -/
structure Recipe where
  skeleton : Skeleton
deriving DecidableEq

/-- The fragment of the JSON data model needed by the derived serde
encoding of `Recipe`. -/
inductive Json where
  | str : String → Json
  | arr : List Json → Json
  | obj : List (String × Json) → Json
  | null : Json

/-- serde encoding of one manifest. -/
def encodeManifest (m : Manifest) : Json :=
  .obj [("relative_path", .str m.relative_path), ("contents", .str m.contents)]

/-- serde encoding of an `Option<String>` field. -/
def encodeOptStr : Option String → Json
  | none => .null
  | some s => .str s

/-- serde encoding of a Skeleton. -/
def encodeSkeleton (s : Skeleton) : Json :=
  .obj [("manifests", .arr (s.manifests.map encodeManifest)),
    ("config_file", encodeOptStr s.config_file),
    ("lock_file", encodeOptStr s.lock_file)]

/-- serde encoding of a Recipe. -/
def encodeRecipe (r : Recipe) : Json :=
  .obj [("skeleton", encodeSkeleton r.skeleton)]

/-- serde decoding of a string. -/
def decodeStr : Json → Option String
  | .str s => some s
  | _ => none

/-- serde decoding of an `Option<String>` field. -/
def decodeOptStr : Json → Option (Option String)
  | .null => some none
  | .str s => some (some s)
  | _ => none

/-- serde decoding of one manifest. -/
def decodeManifest : Json → Option Manifest
  | .obj kvs =>
    match kvs.lookup "relative_path", kvs.lookup "contents" with
    | some jp, some jc =>
      match decodeStr jp, decodeStr jc with
      | some p, some c => some ⟨p, c⟩
      | _, _ => none
    | _, _ => none
  | _ => none

/-- serde decoding of a Skeleton. -/
def decodeSkeleton : Json → Option Skeleton
  | .obj kvs =>
    match kvs.lookup "manifests", kvs.lookup "config_file", kvs.lookup "lock_file" with
    | some jm, some jc, some jl =>
      match jm with
      | .arr js =>
        match js.mapM decodeManifest, decodeOptStr jc, decodeOptStr jl with
        | some manifests, some config_file, some lock_file =>
          some ⟨manifests, config_file, lock_file⟩
        | _, _, _ => none
      | _ => none
    | _, _, _ => none
  | _ => none

/-- serde decoding of a Recipe. -/
def decodeRecipe (j : Json) : Option Recipe :=
  match j with
  | .obj kvs =>
    match kvs.lookup "skeleton" with
    | some js => (decodeSkeleton js).map (fun s => ⟨s⟩)
    | none => none
  | _ => none

theorem mapM_loop_decode_encode : ∀ (l acc : List Manifest),
    List.mapM.loop decodeManifest (l.map encodeManifest) acc = some (acc.reverse ++ l)
  | [], acc => by simp [List.mapM.loop]
  | m :: rest, acc => by
    rw [show List.mapM.loop decodeManifest ((m :: rest).map encodeManifest) acc
        = List.mapM.loop decodeManifest (rest.map encodeManifest) (m :: acc) from rfl]
    rw [mapM_loop_decode_encode rest (m :: acc)]
    simp

theorem decodeOptStr_encodeOptStr : ∀ o : Option String,
    decodeOptStr (encodeOptStr o) = some o
  | none => rfl
  | some _s => rfl

/-- C7. Serialization of a Skeleton (wrapped in its Recipe) round-trips
losslessly: decoding the encoding of any value yields the value back. -/
theorem c7_recipe_roundtrip (r : Recipe) :
    decodeRecipe (encodeRecipe r) = some r := by
  obtain ⟨⟨manifests, config_file, lock_file⟩⟩ := r
  simp [decodeRecipe, encodeRecipe, decodeSkeleton, encodeSkeleton, List.lookup,
    decodeOptStr_encodeOptStr]
  rw [mapM_loop_decode_encode manifests []]
  simp

/-! ## Claim C8: single-member scoping of the root workspace manifest
(`src/skeleton/mod.rs` lines 350-361) -/

/-- Rewrite the first element satisfying `p` (the `iter_mut().find(..)`
pattern), leaving everything else in place. -/
def mapFirst (p : α → Bool) (f : α → α) : List α → List α
  | [] => []
  | a :: t => if p a then f a :: t else a :: mapFirst p f t

/-- Replace the `workspace.members` array (when present) with the
one-element list holding `member`. Nothing else is touched. -/
def setMembers (member : String) (c : Toml) : Toml :=
  tmodify c "workspace" (fun w => tmodify w "members" (fun _ => .arr [.str member]))

/-- `ignore_all_members_except`: rewrite the top-level `Cargo.toml`
manifest's member list. -/
def ignore_all_members_except (manifests : List ParsedManifest) (member : String) :
    List ParsedManifest :=
  mapFirst (fun m => m.relative_path == "Cargo.toml")
    (fun m => { m with contents := setMembers member m.contents }) manifests

/-- Root workspace manifest fixture with both a `members` array and a
`default-members` array. -/
def exRootManifest : ParsedManifest :=
  ⟨"Cargo.toml", .table [("workspace", .table [
    ("members", .arr [.str "backend", .str "ci"]),
    ("default-members", .arr [.str "backend"])])]⟩

/-- Refutation of C8 as stated: after scoping to `backend`, the root
manifest's `default-members` field is still present — it is not removed. -/
theorem c8_member_scoping_counterexample :
    ignore_all_members_except [exRootManifest] "backend"
      = [⟨"Cargo.toml", .table [("workspace", .table [
          ("members", .arr [.str "backend"]),
          ("default-members", .arr [.str "backend"])])]⟩] ∧
    (match tget ((ignore_all_members_except [exRootManifest] "backend").headD
        exRootManifest).contents "workspace" with
      | some w => tget w "default-members"
      | none => none) = some (.arr [.str "backend"]) :=
  ⟨rfl, rfl⟩

theorem mapFirst_getD (p : α → Bool) (f : α → α) :
    ∀ (l : List α) (i : Nat) (d : α),
    (mapFirst p f l).getD i d = l.getD i d ∨
    ((mapFirst p f l).getD i d = f (l.getD i d) ∧ p (l.getD i d) = true)
  | [], i, d => Or.inl rfl
  | a :: t, i, d => by
    by_cases hp : p a = true
    · rw [show mapFirst p f (a :: t) = f a :: t from by rw [mapFirst, if_pos hp]]
      match i with
      | 0 => exact Or.inr ⟨rfl, hp⟩
      | Nat.succ j => exact Or.inl rfl
    · rw [show mapFirst p f (a :: t) = a :: mapFirst p f t from by rw [mapFirst, if_neg hp]]
      match i with
      | 0 => exact Or.inl rfl
      | Nat.succ j => exact mapFirst_getD p f t j d

/-- C8 (amended). Scoping rewrites only the first manifest whose relative
path is `Cargo.toml`: its `workspace.members` array (when present) becomes
the one-element list holding the requested member; the `default-members`
field — like every other workspace key — is left intact, and every other
manifest is unchanged. -/
theorem c8_member_scoping (ms : List ParsedManifest) (member : String) :
    ((ignore_all_members_except ms member).length = ms.length) ∧
    (∀ (i : Nat) (d : ParsedManifest),
      (ignore_all_members_except ms member).getD i d = ms.getD i d ∨
      ((ignore_all_members_except ms member).getD i d
          = ⟨(ms.getD i d).relative_path, setMembers member (ms.getD i d).contents⟩ ∧
        (ms.getD i d).relative_path = "Cargo.toml")) ∧
    (∀ c : Toml, ∀ k, k ≠ "workspace" → tget (setMembers member c) k = tget c k) ∧
    (∀ c w, tget c "workspace" = some w →
      tget (setMembers member c) "workspace"
        = some (tmodify w "members" (fun _ => .arr [.str member]))) ∧
    (∀ w : Toml, ∀ k2, k2 ≠ "members" →
      tget (tmodify w "members" (fun _ => Toml.arr [Toml.str member])) k2 = tget w k2) ∧
    (∀ w v, tget w "members" = some v →
      tget (tmodify w "members" (fun _ => Toml.arr [Toml.str member])) "members"
        = some (.arr [.str member])) := by
  have hlen : ∀ (p : ParsedManifest → Bool) (f : ParsedManifest → ParsedManifest)
      (l : List ParsedManifest), (mapFirst p f l).length = l.length := by
    intro p f l
    induction l with
    | nil => rfl
    | cons a t ih =>
      by_cases hp : p a = true
      · rw [show mapFirst p f (a :: t) = f a :: t from by rw [mapFirst, if_pos hp]]
        rfl
      · rw [show mapFirst p f (a :: t) = a :: mapFirst p f t from by rw [mapFirst, if_neg hp]]
        simpa using ih
  refine ⟨hlen _ _ ms, ?_, ?_, ?_, ?_, ?_⟩
  · intro i d
    rcases mapFirst_getD (fun m => m.relative_path == "Cargo.toml")
        (fun m => { m with contents := setMembers member m.contents }) ms i d with h | ⟨h1, h2⟩
    · exact Or.inl h
    · refine Or.inr ⟨h1, ?_⟩
      exact beq_iff_eq.1 h2
  · intro c k hk
    unfold setMembers
    exact tget_tmodify_diff c "workspace" k hk _
  · intro c w hw
    unfold setMembers
    rw [tget_tmodify_self, hw]
    rfl
  · intro w k2 hk2
    exact tget_tmodify_diff w "members" k2 hk2 _
  · intro w v hv
    rw [tget_tmodify_self, hv]
    rfl

/-- Closed instance of the amended C8, discharging its hypotheses on the
fixture: the member list is replaced and `default-members` is untouched. -/
theorem c8_member_scoping_witness :
    (("default-members" : String) ≠ "members") ∧
    tget (tmodify (Toml.table [("members", .arr [.str "backend", .str "ci"]),
        ("default-members", .arr [.str "backend"])])
        "members" (fun _ => Toml.arr [Toml.str "backend"])) "default-members"
      = some (.arr [.str "backend"]) :=
  ⟨by decide,
    ((c8_member_scoping [exRootManifest] "backend").2.2.2.2.1
      (Toml.table [("members", .arr [.str "backend", .str "ci"]),
        ("default-members", .arr [.str "backend"])])
      "default-members" (by decide)).trans rfl⟩

/-! ## Claim C9: the toolchain pin — reading kind and text, and verbatim
replay (`src/skeleton/read.rs` lines 173-186) -/

/-- The two accepted toolchain pin formats: the bare `rust-toolchain` file
and the structured `rust-toolchain.toml` file. -/
inductive RustToolchainFile where
  | Bare : RustToolchainFile
  | Toml : RustToolchainFile
deriving DecidableEq

/-- `read::rust_toolchain`, over the optionally-present contents of the two
candidate files at the workspace root: `rust-toolchain` takes precedence
over `rust-toolchain.toml`, and the raw text is paired with the kind. -/
def rust_toolchain (bare tomlPin : Option String) :
    Option (RustToolchainFile × String) :=
  match bare with
  | some file => some (.Bare, file)
  | none =>
    match tomlPin with
    | some file => some (.Toml, file)
    | none => none

/-- Modelled from the spec: the snapshot's `Skeleton` struct and
`build_minimum_project` predate the toolchain feature (the field and its
replay are absent from `src/skeleton/mod.rs`), so the storage/replay half
is taken from the spec's words — the pin is stored as the (kind, raw text)
pair and "whichever is found is replayed verbatim under the same filename
during scaffold construction". The filename is implied by the kind. -/
def toolchainFileName : RustToolchainFile → String
  | .Bare => "rust-toolchain"
  | .Toml => "rust-toolchain.toml"

/-- Modelled from the spec: the scaffold write produced for a stored
toolchain pin — the implied filename with the verbatim raw text. -/
def writeToolchainFile : Option (RustToolchainFile × String) → List (String × String)
  | none => []
  | some (kind, file) => [(toolchainFileName kind, file)]

/-- C9. The toolchain pin is recorded as a (kind, raw text) pair whose kind
distinguishes the two accepted file names, and the pin found at the
workspace root is replayed verbatim under the same filename: a bare pin
found as `rust-toolchain` is written back as `rust-toolchain` with
unchanged text, a structured pin found as `rust-toolchain.toml` is written
back as `rust-toolchain.toml` with unchanged text, and no file is written
when none was found. -/
theorem c9_toolchain_pin_replay :
    (∀ (file : String) (tomlPin : Option String),
      rust_toolchain (some file) tomlPin = some (.Bare, file) ∧
      writeToolchainFile (rust_toolchain (some file) tomlPin)
        = [("rust-toolchain", file)]) ∧
    (∀ file : String,
      rust_toolchain none (some file) = some (.Toml, file) ∧
      writeToolchainFile (rust_toolchain none (some file))
        = [("rust-toolchain.toml", file)]) ∧
    rust_toolchain none none = none ∧
    writeToolchainFile (rust_toolchain none none) = [] ∧
    toolchainFileName .Bare = "rust-toolchain" ∧
    toolchainFileName .Toml = "rust-toolchain.toml" :=
  ⟨fun _file _tomlPin => ⟨rfl, rfl⟩, fun _file => ⟨rfl, rfl⟩, rfl, rfl, rfl, rfl⟩


/-! ## Claim C1: determinism of `Skeleton::derive`
(`src/skeleton/mod.rs` lines 32-61, `src/skeleton/read.rs` lines 40-154) -/

/-- `TargetKind` (`src/skeleton/target.rs`); the library case carries the
proc-macro flag. Variant order matters: it is the derived `Ord`. -/
inductive TargetKind where
  | Lib : Bool → TargetKind
  | Bin : TargetKind
  | Test : TargetKind
  | Bench : TargetKind
  | Example : TargetKind
  | BuildScript : TargetKind
deriving DecidableEq

/-- `Target` (`src/skeleton/target.rs`): path relative to the manifest
directory, kind, and name. The derived `Ord` compares the fields in
declaration order. -/
structure Target where
  path : String
  kind : TargetKind
  name : String
deriving DecidableEq

/-- The rank of a `TargetKind` under the derived `Ord` (variant order;
within `Lib`, `false < true`). -/
def kindRank : TargetKind → Nat
  | .Lib false => 0
  | .Lib true => 1
  | .Bin => 2
  | .Test => 3
  | .Bench => 4
  | .Example => 5
  | .BuildScript => 6

/-- Inverse of `kindRank`, to recover injectivity. -/
def kindOfRank : Nat → TargetKind
  | 0 => .Lib false
  | 1 => .Lib true
  | 2 => .Bin
  | 3 => .Test
  | 4 => .Bench
  | 5 => .Example
  | _ => .BuildScript

theorem kindRank_leftInv : ∀ k : TargetKind, kindOfRank (kindRank k) = k
  | .Lib false => rfl
  | .Lib true => rfl
  | .Bin => rfl
  | .Test => rfl
  | .Bench => rfl
  | .Example => rfl
  | .BuildScript => rfl

/-- The derived lexicographic `Ord` on `Target` (path, then kind, then
name) as a relation: this is the iteration order of the `BTreeSet<Target>`
built by `gather_targets`. -/
def TargetLe (a b : Target) : Prop :=
  a.path < b.path ∨
    (a.path = b.path ∧
      (kindRank a.kind < kindRank b.kind ∨
        (kindRank a.kind = kindRank b.kind ∧ a.name ≤ b.name)))

instance : DecidableRel TargetLe := fun a b => by
  unfold TargetLe
  infer_instance

instance : IsTotal Target TargetLe := ⟨by
  intro a b
  rcases lt_trichotomy a.path b.path with h | h | h
  · exact Or.inl (Or.inl h)
  · rcases lt_trichotomy (kindRank a.kind) (kindRank b.kind) with h2 | h2 | h2
    · exact Or.inl (Or.inr ⟨h, Or.inl h2⟩)
    · rcases le_total a.name b.name with h3 | h3
      · exact Or.inl (Or.inr ⟨h, Or.inr ⟨h2, h3⟩⟩)
      · exact Or.inr (Or.inr ⟨h.symm, Or.inr ⟨h2.symm, h3⟩⟩)
    · exact Or.inr (Or.inr ⟨h.symm, Or.inl h2⟩)
  · exact Or.inr (Or.inl h)⟩

instance : IsTrans Target TargetLe := ⟨by
  intro a b c hab hbc
  rcases hab with h1 | ⟨e1, h1⟩
  · rcases hbc with h2 | ⟨e2, h2⟩
    · exact Or.inl (h1.trans h2)
    · exact Or.inl (by rw [← e2]; exact h1)
  · rcases hbc with h2 | ⟨e2, h2⟩
    · exact Or.inl (by rw [e1]; exact h2)
    · refine Or.inr ⟨e1.trans e2, ?_⟩
      rcases h1 with k1 | ⟨ke1, n1⟩
      · rcases h2 with k2 | ⟨ke2, n2⟩
        · exact Or.inl (k1.trans k2)
        · exact Or.inl (by rw [← ke2]; exact k1)
      · rcases h2 with k2 | ⟨ke2, n2⟩
        · exact Or.inl (by rw [ke1]; exact k2)
        · exact Or.inr ⟨ke1.trans ke2, n1.trans n2⟩⟩

instance : IsAntisymm Target TargetLe := ⟨by
  intro a b hab hba
  obtain ⟨pa, ka, na⟩ := a
  obtain ⟨pb, kb, nb⟩ := b
  have hpp : pa = pb := by
    rcases hab with h1 | ⟨e1, _⟩
    · rcases hba with h2 | ⟨e2, _⟩
      · exact absurd (h1.trans h2) (lt_irrefl _)
      · exact e2.symm
    · exact e1
  subst hpp
  have hk1 : kindRank ka < kindRank kb ∨ (kindRank ka = kindRank kb ∧ na ≤ nb) := by
    rcases hab with h1 | ⟨_, h1⟩
    · exact absurd h1 (lt_irrefl _)
    · exact h1
  have hk2 : kindRank kb < kindRank ka ∨ (kindRank kb = kindRank ka ∧ nb ≤ na) := by
    rcases hba with h2 | ⟨_, h2⟩
    · exact absurd h2 (lt_irrefl _)
    · exact h2
  have hkk : kindRank ka = kindRank kb := by
    rcases hk1 with h1 | ⟨e1, _⟩
    · rcases hk2 with h2 | ⟨e2, _⟩
      · exact absurd (h1.trans h2) (lt_irrefl _)
      · exact e2.symm
    · exact e1
  have hkind : ka = kb := by
    rw [← kindRank_leftInv ka, ← kindRank_leftInv kb, hkk]
  subst hkind
  have hna : na ≤ nb := by
    rcases hk1 with h1 | ⟨_, h1⟩
    · exact absurd h1 (lt_irrefl _)
    · exact h1
  have hnb : nb ≤ na := by
    rcases hk2 with h2 | ⟨_, h2⟩
    · exact absurd h2 (lt_irrefl _)
    · exact h2
  rw [le_antisymm hna hnb]⟩

/-- The `BTreeSet<Target>` iteration order: targets sorted by the derived
`Ord`. -/
def sortTargets (ts : List Target) : List Target :=
  List.insertionSort TargetLe ts

/-- The sort key of one serialized `[[bin]]` entry used by the
auto-discovered-binaries sort (`read.rs` lines 82-99): the `path` string
when present, else the `name` string. The Rust code `unwrap`s (panics) when
neither is a string; the model defaults to `""` there. -/
def binKeyD (b : Toml) : String :=
  ((((tget b "path").orElse (fun _ => tget b "name")).bind
    (fun v => match v with | .str s => some s | _ => none)).getD "")

/-- Comparison of two bin entries by key. -/
def binLe (a b : Toml) : Prop := binKeyD a ≤ binKeyD b

instance : DecidableRel binLe := fun a b => by
  unfold binLe
  infer_instance

instance : IsTotal Toml binLe := ⟨fun _a _b => le_total _ _⟩

instance : IsTrans Toml binLe := ⟨fun _ _ _ hab hbc => le_trans hab hbc⟩

/-- The auto-discovered-bin sort of `read.rs`. -/
def sortBins (bins : List Toml) : List Toml :=
  List.insertionSort binLe bins

mutual

/-- A deterministic stand-in for `toml::to_string`: any fixed pure printer
makes the serialization step of `derive` a function of the parsed value,
which is all the determinism claim needs. -/
def tomlToString : Toml → String
  | .str s => "\"" ++ s ++ "\""
  | .int n => toString n
  | .bool b => toString b
  | .arr xs => "[" ++ tomlListToString xs ++ "]"
  | .table kvs => "\x7b" ++ tomlTableToString kvs ++ "\x7d"

/-- Printer for TOML arrays. -/
def tomlListToString : List Toml → String
  | [] => ""
  | x :: rest => tomlToString x ++ ", " ++ tomlListToString rest

/-- Printer for TOML tables. -/
def tomlTableToString : List (String × Toml) → String
  | [] => ""
  | (k, v) :: rest => k ++ " = " ++ tomlToString v ++ ", " ++ tomlTableToString rest

end

/-- The per-manifest data obtained from `cargo metadata` and parsing, before
any ordering is imposed: the parsed pre-completion manifest text and the
package's targets in whatever order the metadata returned them. -/
structure PackageData where
  contents : Toml
  targets : List Target

/-- Keyed-entry comparison: the `BTreeMap` in `read::manifests` is keyed by
the manifest path. -/
def entryLe (a b : String × PackageData) : Prop := a.1 ≤ b.1

instance : DecidableRel entryLe := fun a b => by
  unfold entryLe
  infer_instance

instance : IsTotal (String × PackageData) entryLe := ⟨fun _a _b => le_total _ _⟩

instance : IsTrans (String × PackageData) entryLe := ⟨fun _ _ _ h1 h2 => le_trans h1 h2⟩

/-- `BTreeMap` iteration: entries sorted by key (unique keys assumed, as
manifest paths are deduplicated). -/
def sortByKey (entries : List (String × PackageData)) : List (String × PackageData) :=
  List.insertionSort entryLe entries

/-- Manifest ordering by relative path, the final sort of `derive`. -/
def manifestPathLe (a b : Manifest) : Prop := a.relative_path ≤ b.relative_path

instance : DecidableRel manifestPathLe := fun a b => by
  unfold manifestPathLe
  infer_instance

instance : IsTotal Manifest manifestPathLe := ⟨fun _a _b => le_total _ _⟩

instance : IsTrans Manifest manifestPathLe := ⟨fun _ _ _ h1 h2 => le_trans h1 h2⟩

/-- The `serialised_manifests.sort_by_key(relative_path)` step. -/
def sortManifests (l : List Manifest) : List Manifest :=
  List.insertionSort manifestPathLe l

/-- The manifest-collection half of `derive`: iterate the keyed map in
sorted order, keep the parsed (pre-completion) contents, then apply the
optional single-member scoping. -/
def deriveParsed (entries : List (String × PackageData)) (member : Option String) :
    List ParsedManifest :=
  let parsed := (sortByKey entries).map (fun e => ParsedManifest.mk e.1 e.2.contents)
  match member with
  | some m => ignore_all_members_except parsed m
  | none => parsed

/-- `Skeleton::derive`, over the filesystem/metadata snapshot: collect and
order the manifests, scope to a member if requested, mask local versions in
manifests and lockfile, serialize, and sort by relative path. -/
def derive (entries : List (String × PackageData)) (member : Option String)
    (config : Option String) (lock : Option Toml) : Skeleton :=
  { manifests := sortManifests
      (((mask_local_crate_versions (deriveParsed entries member) lock).1).map
        (fun m => Manifest.mk m.relative_path (tomlToString m.contents)))
    config_file := config
    lock_file := ((mask_local_crate_versions (deriveParsed entries member) lock).2).map
      tomlToString }

/-- Two sorted-by-key lists that are permutations of each other and have no
duplicate keys are equal. -/
theorem sorted_nodupkeys_unique {α κ : Type} [LinearOrder κ] (key : α → κ) :
    ∀ (l1 l2 : List α), l1.Perm l2 →
      List.Pairwise (fun a b => key a ≤ key b) l1 →
      List.Pairwise (fun a b => key a ≤ key b) l2 →
      (l1.map key).Nodup → l1 = l2
  | [], l2, hp, _, _, _ => (hp.symm.eq_nil).symm
  | a :: t1, [], hp, _, _, _ => absurd hp.eq_nil (by simp)
  | a :: t1, b :: t2, hp, hs1, hs2, hnd => by
    have hab : a = b := by
      by_cases heq : a = b
      · exact heq
      · exfalso
        have hamem : a ∈ b :: t2 := hp.mem_iff.mp (List.mem_cons_self a t1)
        have hbmem : b ∈ a :: t1 := hp.symm.mem_iff.mp (List.mem_cons_self b t2)
        have hat2 : a ∈ t2 := by
          rcases List.mem_cons.mp hamem with h | h
          · exact absurd h heq
          · exact h
        have hbt1 : b ∈ t1 := by
          rcases List.mem_cons.mp hbmem with h | h
          · exact absurd h.symm heq
          · exact h
        have h1 : key a ≤ key b := (List.pairwise_cons.mp hs1).1 b hbt1
        have h2 : key b ≤ key a := (List.pairwise_cons.mp hs2).1 a hat2
        have hk : key b ∈ t1.map key := List.mem_map_of_mem key hbt1
        have hnd' : ¬key a ∈ t1.map key ∧ (t1.map key).Nodup :=
          List.nodup_cons.mp (by simpa using hnd)
        exact hnd'.1 (le_antisymm h1 h2 ▸ hk)
    subst hab
    have ht := sorted_nodupkeys_unique key t1 t2 hp.cons_inv
      (List.pairwise_cons.mp hs1).2 (List.pairwise_cons.mp hs2).2
      (List.nodup_cons.mp (by simpa using hnd)).2
    rw [ht]

/-- C1. `Skeleton::derive` is deterministic: permuting the order in which
the filesystem/metadata layer returns the manifest entries (with their
paths unique) leaves the derived Skeleton — and its persisted recipe
serialization — unchanged; the manifests of every derived Skeleton are
sorted by relative path; the `BTreeSet` target ordering is invariant under
permutation of the discovered targets; and the auto-discovered bin sort
always yields a list sorted by the source-path key. -/
theorem c1_derive_deterministic (e1 e2 : List (String × PackageData))
    (member config : Option String) (lock : Option Toml)
    (hperm : e1.Perm e2) (hnodup : (e1.map Prod.fst).Nodup) :
    derive e1 member config lock = derive e2 member config lock ∧
    encodeSkeleton (derive e1 member config lock)
      = encodeSkeleton (derive e2 member config lock) ∧
    List.Pairwise manifestPathLe (derive e1 member config lock).manifests ∧
    (∀ ts1 ts2 : List Target, ts1.Perm ts2 → sortTargets ts1 = sortTargets ts2) ∧
    (∀ bins : List Toml, List.Pairwise binLe (sortBins bins)) := by
  have hsort : sortByKey e1 = sortByKey e2 := by
    refine sorted_nodupkeys_unique Prod.fst (sortByKey e1) (sortByKey e2) ?_ ?_ ?_ ?_
    · exact (List.perm_insertionSort entryLe e1).trans
        (hperm.trans (List.perm_insertionSort entryLe e2).symm)
    · exact List.sorted_insertionSort entryLe e1
    · exact List.sorted_insertionSort entryLe e2
    · exact (((List.perm_insertionSort entryLe e1).map Prod.fst).nodup_iff).mpr hnodup
  have hd : derive e1 member config lock = derive e2 member config lock := by
    unfold derive deriveParsed
    rw [hsort]
  refine ⟨hd, by rw [hd], ?_, ?_, ?_⟩
  · exact List.sorted_insertionSort manifestPathLe _
  · intro ts1 ts2 hts
    exact List.eq_of_perm_of_sorted
      ((List.perm_insertionSort TargetLe ts1).trans
        (hts.trans (List.perm_insertionSort TargetLe ts2).symm))
      (List.sorted_insertionSort TargetLe ts1)
      (List.sorted_insertionSort TargetLe ts2)
  · intro bins
    exact List.sorted_insertionSort binLe bins

/-- Fixture entries for the C1 witness, in two different filesystem
orders. -/
def exEntryA : String × PackageData := ("a/Cargo.toml", ⟨exManifestA.contents, []⟩)

/-- Second fixture entry. -/
def exEntryB : String × PackageData :=
  ("b/Cargo.toml", ⟨exManifestB.contents,
    [⟨"src/lib.rs", .Lib false, "b"⟩, ⟨"src/bin/x.rs", .Bin, "x"⟩]⟩)

/-- Closed instance of C1: the two-entry fixture presented in both orders
derives to the same Skeleton. -/
theorem c1_derive_deterministic_witness :
    ([exEntryA, exEntryB].Perm [exEntryB, exEntryA]) ∧
    (([exEntryA, exEntryB].map Prod.fst).Nodup) ∧
    derive [exEntryA, exEntryB] none none none
      = derive [exEntryB, exEntryA] none none none :=
  ⟨List.Perm.swap exEntryB exEntryA [], by decide,
    (c1_derive_deterministic [exEntryA, exEntryB] [exEntryB, exEntryA] none none none
      (List.Perm.swap exEntryB exEntryA []) (by decide)).1⟩


end CargoChef
